import Mathlib

/-!
Shallow embedding of `android/cli/hooks/aar-transform.js`: the AAR transform
hook with its `SimpleFileCache`, the per-task pipeline
(hash → duplicate skip → cache lookup or transform → unique package name →
commit) and the end-of-run cache cleanup and persist step.

JavaScript objects used as string-keyed maps (`SimpleFileCache.data`,
`libraryHashMap`, `packageNameMap`) are embedded as association lists with
insertion-order semantics; `set` overwrites in place, `keys` enumerates in
insertion order, matching `Object.keys` for string keys.

External collaborators (Node `fs`, `crypto`, `path`, the `appc-aar-tools`
transformer, `JSON`) are parameters of the run environment or small explicit
models, each marked in its doc comment.
-/

namespace Aar

/-- Association-list lookup, the embedding of reading `obj[key]` on a
JavaScript object used as a map. -/
def alistLookup {α : Type} : List (String × α) → String → Option α
  | [], _ => none
  | (k, v) :: rest, key => if k = key then some v else alistLookup rest key

/-- Association-list update, the embedding of `obj[key] = v`: overwrites in
place when the key exists, otherwise appends (insertion order preserved). -/
def alistSet {α : Type} : List (String × α) → String → α → List (String × α)
  | [], key, v => [(key, v)]
  | (k, w) :: rest, key, v =>
      if k = key then (key, v) :: rest else (k, w) :: alistSet rest key v

/-- Origin constants `LIBRARY_ORIGIN_CORE` / `LIBRARY_ORIGIN_MODULE` /
`LIBRARY_ORIGIN_PORJECT` (sic) of the source. -/
inductive Origin where
  | core
  | module
  | project
deriving DecidableEq, Repr

/-- The slice of a Titanium module info object that the hook reads
(`moduleInfo.id`). -/
structure ModuleInfo where
  id : String
deriving DecidableEq, Repr

/-- A transform task as built by the scanners: the `.aar` path, the origin
constant, and (for module-provided archives) the module info. Project-origin
tasks carry no `moduleInfo` property; the source never reads it for them. -/
structure TaskInfo where
  aarPathAndFilename : String
  originType : Origin
  moduleInfo : Option ModuleInfo
deriving DecidableEq, Repr

/-- Result object produced by the external `AarTransformer.transform`
(collaborator from `appc-aar-tools`, opaque to this hook). -/
structure TransformResult where
  packageName : String
  explodedPath : String
  jars : List String
  nativeLibraries : List String
deriving DecidableEq, Repr

/-- The `libraryInfo` record built in `doTransform` and committed to the
registries, the builder and the cache. -/
structure LibraryInfo where
  packageName : String
  explodedPath : String
  jars : List String
  nativeLibraries : List String
  sha256 : String
  task : TaskInfo
deriving DecidableEq, Repr

/-- A value stored in the cache file: either the `data-version` tag string or
a library record. -/
inductive CacheVal where
  | ver (s : String)
  | record (l : LibraryInfo)
deriving DecidableEq, Repr

/-- `HOOK_DATA_VERSION` constant. -/
def HOOK_DATA_VERSION : String := "1"

/-- `SimpleFileCache`: in-memory map plus the backing file path. -/
structure SimpleFileCache where
  cachePathAndFilename : String
  data : List (String × CacheVal)
deriving DecidableEq, Repr

/-- `SimpleFileCache.has`. -/
def SimpleFileCache.has (c : SimpleFileCache) (key : String) : Bool :=
  (alistLookup c.data key).isSome

/-- `SimpleFileCache.get`: `null` (here `none`) when the key is absent. -/
def SimpleFileCache.get (c : SimpleFileCache) (key : String) : Option CacheVal :=
  if c.has key then alistLookup c.data key else none

/-- `SimpleFileCache.set` (in-memory only). -/
def SimpleFileCache.set (c : SimpleFileCache) (key : String) (v : CacheVal) :
    SimpleFileCache :=
  { c with data := alistSet c.data key v }

/-- `SimpleFileCache.keys`. -/
def SimpleFileCache.keys (c : SimpleFileCache) : List String :=
  c.data.map Prod.fst

/-- `SimpleFileCache.remove`: deletes the entry when present, no-op
otherwise (object keys are unique, so a filter is the deletion). -/
def SimpleFileCache.remove (c : SimpleFileCache) (key : String) :
    SimpleFileCache :=
  { c with data := c.data.filter (fun kv => !(kv.1 = key : Bool)) }

/-- `SimpleFileCache.flush`. -/
def SimpleFileCache.flush (c : SimpleFileCache) : SimpleFileCache :=
  { c with data := [] }

/-- State of the cache file on disk when the constructor runs: absent,
present but unreadable or unparsable (`JSON.parse` / `readFileSync` throws),
or present with a parsed map. The JSON layer itself is the external `JSON`
collaborator; a valid file denotes the map it stores. -/
inductive CacheFileState where
  | absent
  | corrupt
  | valid (data : List (String × CacheVal))
deriving DecidableEq, Repr

/-- Result of the `SimpleFileCache` constructor: the cache object and whether
the constructor deleted the backing file (`fs.unlinkSync` in the catch). -/
structure LoadResult where
  cache : SimpleFileCache
  removedFile : Bool
deriving DecidableEq, Repr

/-- The `SimpleFileCache` constructor: absent file gives an empty map; a
throw while reading or parsing deletes the file and gives an empty map;
otherwise the parsed map is used. -/
def SimpleFileCache.load (p : String) (st : CacheFileState) : LoadResult :=
  match st with
  | .absent => ⟨⟨p, []⟩, false⟩
  | .corrupt => ⟨⟨p, []⟩, true⟩
  | .valid d => ⟨⟨p, d⟩, false⟩

/-- Characters of a path before its last `/`, `none` when it has none. -/
def beforeLastSlash : List Char → Option (List Char)
  | [] => none
  | c :: rest =>
    match beforeLastSlash rest with
    | some suffix => some (c :: suffix)
    | none => if c = '/' then some [] else none

/-- Model of Node `path.dirname` (external collaborator): the path up to the
last separator, `"."` when there is none and `"/"` at the root. -/
def dirname (p : String) : String :=
  match beforeLastSlash p.data with
  | none => "."
  | some [] => "/"
  | some l => String.mk l

/-- Model of `JSON.stringify` (external collaborator) for the cache map: an
injective-by-construction flat text serialization. Only its byte-string
nature matters to the theorems, never its concrete format. -/
def encodeVal : CacheVal → String
  | .ver s => "ver:" ++ s
  | .record l => "rec:" ++ l.packageName ++ "," ++ l.explodedPath ++ "," ++ l.sha256

/-- Serialization of the whole cache map (see `encodeVal`). -/
def encodeCache : List (String × CacheVal) → String
  | [] => ""
  | (k, v) :: rest => k ++ "=" ++ encodeVal v ++ ";" ++ encodeCache rest

/-- File-system operations `persist` and the constructor perform on the cache
file. -/
inductive FsOp where
  | unlink (p : String)
  | mkdirRec (dir : String)
  | writeFile (p : String) (contents : String)
deriving DecidableEq, Repr

/-- `SimpleFileCache.persist` as the sequence of file operations it performs:
the parent-directory creation always runs, because `fs.exists` is the
callback-style API invoked without a callback so it returns `undefined` and
`!undefined` is `true`; then a single direct `fs.writeFileSync` of the full
serialized map to the backing file (no temporary file, no rename). -/
def SimpleFileCache.persistOps (c : SimpleFileCache) : List FsOp :=
  [FsOp.mkdirRec (dirname c.cachePathAndFilename),
   FsOp.writeFile c.cachePathAndFilename (encodeCache c.data)]

/-- Model of a direct in-place file write interrupted after `j` bytes: the
target file is left holding the first `j` bytes of the data. `fs.writeFileSync`
writes into the target file itself, so an interruption truncates it. -/
def partialWrite (content : String) (j : Nat) : String :=
  String.mk (content.data.take j)

/-- `BUILD_VARIANT_APP` / `BUILD_VARIANT_MODULE`. -/
inductive Variant where
  | app
  | module
deriving DecidableEq, Repr

/-- The slice of the builder instance the hook mutates: `classPaths` (an
object used as a set of jar paths) and `androidLibraries`. -/
structure Builder where
  classPaths : List String
  androidLibraries : List LibraryInfo
deriving DecidableEq, Repr

/-- `builder.classPaths[jar] = 1`: set-insert keeping first-insertion
order. -/
def addClassPath (cp : List String) (jar : String) : List String :=
  if cp.contains jar then cp else cp ++ [jar]

/-- Run environment: the external collaborators of one orchestration run.
`fileBytes` gives the byte stream of an input path (`none` when the read
stream fails), `digestFn` models the incremental `crypto` hash over those
bytes, `fsExists` is `fs.existsSync`, `transformFn` the external
`AarTransformer.transform` (its options are determined by the task and the
build variant). -/
structure RunEnv where
  fileBytes : String → Option (List Nat)
  digestFn : List Nat → String
  fsExists : String → Bool
  transformFn : TaskInfo → Variant → Except String TransformResult

/-- Mutable state threaded through one orchestration run: the cache, the two
run-scoped registries, the builder, plus the log of external transform
invocations (in order) used to state the caching claims. -/
structure RunState where
  cache : SimpleFileCache
  libraryHashMap : List (String × LibraryInfo)
  packageNameMap : List (String × LibraryInfo)
  builder : Builder
  transformCalls : List TaskInfo
deriving DecidableEq, Repr

/-- Errors passed to a waterfall `done` callback: the `SkipLibraryError`
marker, a transformer failure, or the package-name conflict error. -/
inductive RunError where
  | skip
  | transformFailed (msg : String)
  | conflict (msg : String)
deriving DecidableEq, Repr

/-- The `hashFile` waterfall step. The source pipes the file through the
hash via `readable` events and calls `done(null, hex)` at end of stream. It
attaches no `error` listener: when the read stream fails, no callback is ever
invoked (the error escapes as an uncaught exception), modelled as `none`. -/
def hashFile (fileBytes : String → Option (List Nat))
    (digestFn : List Nat → String) (p : String) : Option String :=
  (fileBytes p).map digestFn

/-- The `skipLibraryIfDuplicate` waterfall step: a hash already present in
`libraryHashMap` raises `SkipLibraryError`, otherwise the hash is passed on. -/
def skipLibraryIfDuplicate (libraryHashMap : List (String × LibraryInfo))
    (hash : String) : Except RunError String :=
  if (alistLookup libraryHashMap hash).isSome then Except.error RunError.skip
  else Except.ok hash

/-- Outcome of the `doTransform` waterfall step. `typeErr` is the branch
where the cached value under the hash is the version tag string: the source
then evaluates `cacheData.task.aarPathAndFilename` on a string, and the
property access on `undefined` throws synchronously (unreachable for real
hex digests, kept for faithfulness). -/
inductive TransformOutcome where
  | cacheHit (l : LibraryInfo)
  | transformed (l : LibraryInfo)
  | transformErr (msg : String)
  | typeErr
deriving DecidableEq, Repr

/-- The `doTransform` waterfall step: reuse the cached record when the entry
under the hash records the same input path and its exploded directory still
exists; otherwise invoke the external transformer and build the
`libraryInfo` record. -/
def doTransform (env : RunEnv) (variant : Variant) (cache : SimpleFileCache)
    (t : TaskInfo) (hash : String) : TransformOutcome :=
  match cache.get hash with
  | some (CacheVal.record cd) =>
      if cd.task.aarPathAndFilename = t.aarPathAndFilename
          && env.fsExists cd.explodedPath then
        TransformOutcome.cacheHit cd
      else
        match env.transformFn t variant with
        | Except.error msg => TransformOutcome.transformErr msg
        | Except.ok r =>
            TransformOutcome.transformed
              { packageName := r.packageName, explodedPath := r.explodedPath,
                jars := r.jars, nativeLibraries := r.nativeLibraries,
                sha256 := hash, task := t }
  | some (CacheVal.ver _) => TransformOutcome.typeErr
  | none =>
      match env.transformFn t variant with
      | Except.error msg => TransformOutcome.transformErr msg
      | Except.ok r =>
          TransformOutcome.transformed
            { packageName := r.packageName, explodedPath := r.explodedPath,
              jars := r.jars, nativeLibraries := r.nativeLibraries,
              sha256 := hash, task := t }

/-- The inner `formatDupeInfo` of `ensureUniquePackageName`. For a Module
origin the source reads `task.moduleInfo.id`; scanner-built Module tasks
always carry a `moduleInfo` (a missing one would throw there, excluded by the
well-formedness hypotheses of the theorems). -/
def formatDupeInfo (d : LibraryInfo) : String :=
  let base := d.task.aarPathAndFilename ++ " (hash: " ++ d.sha256
  let withOrigin :=
    if d.task.originType = Origin.module then
      base ++ ", origin: Module " ++
        (match d.task.moduleInfo with
         | some mi => mi.id
         | none => "")
    else if d.task.originType = Origin.project then
      base ++ ", origin: Project"
    else base
  withOrigin ++ ")"

/-- Guidance sentence appended when both conflicting origins are Module. -/
def guidanceBothModule : String :=
  "Please either select a version of these modules where the conflicting .aar file is the same or you can try removing the .aar file from one module\x27s \"lib\" folder."

/-- Guidance sentence appended when both conflicting origins are Project. -/
def guidanceBothProject : String :=
  "Please either remove the duplicate .aar file or change the package name of one Android Library if possible."

/-- Guidance sentence appended when exactly one conflicting origin is
Project. -/
def guidanceMixed : String :=
  "Please make sure the .aar files in your project and the module match or try removing either the one in your project or in the module."

/-- The guidance selection of `ensureUniquePackageName`: both Module, else
both Project, else one of the two Project; any other combination appends
nothing. -/
def conflictGuidance (a b : Origin) : String :=
  if a = Origin.module ∧ b = Origin.module then guidanceBothModule
  else if a = Origin.project ∧ b = Origin.project then guidanceBothProject
  else if a = Origin.project ∨ b = Origin.project then guidanceMixed
  else ""

/-- The conflict error message built by `ensureUniquePackageName`. -/
def conflictErrorMessage (existing incoming : LibraryInfo) : String :=
  "Conflicting Android Libraries with package name \"" ++
    incoming.packageName ++ "\" detected:\n" ++
  "  " ++ formatDupeInfo existing ++ "\n" ++
  "  " ++ formatDupeInfo incoming ++ "\n\n" ++
  conflictGuidance existing.task.originType incoming.task.originType

/-- The `ensureUniquePackageName` waterfall step: any existing entry under
the record's package name fails the task with the conflict error. -/
def ensureUniquePackageName (packageNameMap : List (String × LibraryInfo))
    (l : LibraryInfo) : Except RunError LibraryInfo :=
  match alistLookup packageNameMap l.packageName with
  | some existing =>
      Except.error (RunError.conflict (conflictErrorMessage existing l))
  | none => Except.ok l

/-- The `updateBuilderWithTransformResult` waterfall step: for Module builds
register the jars as classpaths, then commit the record to both registries,
to `builder.androidLibraries` and to the cache under its hash, together. -/
def updateBuilderWithTransformResult (variant : Variant) (s : RunState)
    (l : LibraryInfo) : RunState :=
  let builder :=
    if variant = Variant.module then
      { s.builder with classPaths := l.jars.foldl addClassPath s.builder.classPaths }
    else s.builder
  { s with
    builder := { builder with androidLibraries := builder.androidLibraries ++ [l] },
    libraryHashMap := alistSet s.libraryHashMap l.sha256 l,
    packageNameMap := alistSet s.packageNameMap l.packageName l,
    cache := s.cache.set l.sha256 (CacheVal.record l) }

/-- Result of one task's waterfall as seen at the per-task boundary:
`ok` is `next()` (success, or a caught `SkipLibraryError`), `fail` is
`next(err)` with a non-skip error, `stuck` means no callback is ever invoked
(unreadable input with no stream error listener, or the synchronous throw of
`doTransform`'s version-tag branch), so the run never completes. -/
inductive StepResult where
  | ok (s : RunState)
  | fail (e : RunError) (s : RunState)
  | stuck (s : RunState)
deriving DecidableEq, Repr

/-- The state carried by a step result. -/
def StepResult.state : StepResult → RunState
  | .ok s => s
  | .fail _ s => s
  | .stuck s => s

/-- One task's waterfall: hash, duplicate skip, cache lookup or transform,
unique package name, commit; the final waterfall callback treats
`SkipLibraryError` as success. `transformCalls` is extended exactly when the
external transformer is invoked. -/
def processTask (env : RunEnv) (variant : Variant) (s : RunState)
    (t : TaskInfo) : StepResult :=
  match hashFile env.fileBytes env.digestFn t.aarPathAndFilename with
  | none => StepResult.stuck s
  | some h =>
    match skipLibraryIfDuplicate s.libraryHashMap h with
    | Except.error _ => StepResult.ok s
    | Except.ok h =>
      match doTransform env variant s.cache t h with
      | TransformOutcome.typeErr => StepResult.stuck s
      | TransformOutcome.transformErr msg =>
          StepResult.fail (RunError.transformFailed msg)
            { s with transformCalls := s.transformCalls ++ [t] }
      | TransformOutcome.cacheHit l =>
          (match ensureUniquePackageName s.packageNameMap l with
           | Except.error e => StepResult.fail e s
           | Except.ok l => StepResult.ok (updateBuilderWithTransformResult variant s l))
      | TransformOutcome.transformed l =>
          let s1 := { s with transformCalls := s.transformCalls ++ [t] }
          (match ensureUniquePackageName s1.packageNameMap l with
           | Except.error e => StepResult.fail e s1
           | Except.ok l => StepResult.ok (updateBuilderWithTransformResult variant s1 l))

/-- `async.eachSeries` over the tasks: strictly sequential, aborting on the
first non-skip error, stuck when a task's callback never fires. -/
def runTasksLoop (env : RunEnv) (variant : Variant) :
    RunState → List TaskInfo → StepResult
  | s, [] => StepResult.ok s
  | s, t :: rest =>
    match processTask env variant s t with
    | StepResult.ok s1 => runTasksLoop env variant s1 rest
    | StepResult.fail e s1 => StepResult.fail e s1
    | StepResult.stuck s1 => StepResult.stuck s1

/-- The version check performed right after the cache is constructed: a
present `data-version` entry different from `HOOK_DATA_VERSION` flushes all
data; then the key is unconditionally set to the current version. A
non-string value under the key also differs from the version string in the
source's `!==` comparison, hence also flushes. -/
def setupCache (c : SimpleFileCache) : SimpleFileCache :=
  let c1 :=
    if c.has "data-version" then
      if c.get "data-version" = some (CacheVal.ver HOOK_DATA_VERSION) then c
      else c.flush
    else c
  c1.set "data-version" (CacheVal.ver HOOK_DATA_VERSION)

/-- End-of-run cleanup: remove every cache key that is not `data-version`
and is not one of this run's hashes. -/
def cleanupCache (c : SimpleFileCache) (hashes : List String) : SimpleFileCache :=
  let unusedKeys := c.keys.filter (fun key =>
    if key = "data-version" then false else !(hashes.contains key))
  unusedKeys.foldl (fun acc key => acc.remove key) c

/-- Overall result of `transformAndroidLibraries`: the empty fast path (the
cache file is never touched), success with the final state, abort with the
first non-skip error, or a run that never completes (see `StepResult.stuck`). -/
inductive RunResult where
  | okEmpty (b : Builder)
  | ok (s : RunState)
  | err (e : RunError) (s : RunState)
  | crash (s : RunState)
deriving DecidableEq, Repr

/-- `transformAndroidLibraries`: the orchestration over one task list,
returning its result together with the file operations performed on the
cache file (the constructor's unlink of a corrupt file, and on overall
success the single persist). -/
def transformAndroidLibraries (env : RunEnv) (tasks : List TaskInfo)
    (builder0 : Builder) (variant : Variant) (cacheFile : CacheFileState)
    (cachePath : String) : RunResult × List FsOp :=
  match tasks with
  | [] => (RunResult.okEmpty builder0, [])
  | _ :: _ =>
    let lr := SimpleFileCache.load cachePath cacheFile
    let loadOps := if lr.removedFile then [FsOp.unlink cachePath] else []
    let cache := setupCache lr.cache
    let s0 : RunState :=
      { cache := cache, libraryHashMap := [], packageNameMap := [],
        builder := builder0, transformCalls := [] }
    match runTasksLoop env variant s0 tasks with
    | StepResult.fail e s => (RunResult.err e s, loadOps)
    | StepResult.stuck s => (RunResult.crash s, loadOps)
    | StepResult.ok s =>
      let hashes := s.libraryHashMap.map Prod.fst
      let cacheF := cleanupCache s.cache hashes
      let sF := { s with cache := cacheF }
      (RunResult.ok sF, loadOps ++ cacheF.persistOps)

/-- `containsSub s sub`: `sub` occurs contiguously inside `s`. -/
def containsSub (s sub : String) : Prop := ∃ a b, s = a ++ sub ++ b


/-- Well-formedness of a cache map: version tag strings live only under the
reserved key. This holds for every map a successful run persists, since real
hex digests never collide with the literal key `"data-version"`. -/
def CacheWF (c : SimpleFileCache) : Prop :=
  ∀ k vs, alistLookup c.data k = some (CacheVal.ver vs) → k = "data-version"

/-- The reuse condition of `doTransform` for digest `h` of task `t`: a cache
entry under `h` recording the same input path whose exploded directory still
exists. -/
def hitCond (env : RunEnv) (c : SimpleFileCache) (t : TaskInfo) (h : String) :
    Prop :=
  ∃ cd, alistLookup c.data h = some (CacheVal.record cd) ∧
    cd.task.aarPathAndFilename = t.aarPathAndFilename ∧
    env.fsExists cd.explodedPath = true

/-- The digest the hash step computes for a task, `none` when the input
cannot be read (see `hashFile`). -/
def digestOf (env : RunEnv) (t : TaskInfo) : Option String :=
  hashFile env.fileBytes env.digestFn t.aarPathAndFilename

/-- The package name the external transformer would declare for a task,
`none` when the transformer fails. -/
def pkgOf (env : RunEnv) (variant : Variant) (t : TaskInfo) : Option String :=
  match env.transformFn t variant with
  | Except.ok r => some r.packageName
  | Except.error _ => none

/-- Mutual consistency of the run-scoped registries, the builder output list
and the cache: every entry of `libraryHashMap` is keyed by its record's
digest, every entry of `packageNameMap` by its record's declared package
name, and every accepted record is simultaneously in both registries, in
`builder.androidLibraries` and in the cache under its own digest. -/
def RegInv (s : RunState) : Prop :=
  (∀ h l, alistLookup s.libraryHashMap h = some l → l.sha256 = h) ∧
  (∀ n l, alistLookup s.packageNameMap n = some l → l.packageName = n) ∧
  (∀ h l, alistLookup s.libraryHashMap h = some l →
     alistLookup s.packageNameMap l.packageName = some l ∧
     l ∈ s.builder.androidLibraries ∧
     alistLookup s.cache.data l.sha256 = some (CacheVal.record l))

/-- Whether a file operation writes file contents. -/
def isWriteOp : FsOp → Bool
  | FsOp.writeFile _ _ => true
  | _ => false

/-- Invariant of the live cache during a run: every record entry is stored
under its own digest, and the reserved key holds the current version tag.
Established by the post-construction version check and preserved by every
task. -/
def CacheInv (c : SimpleFileCache) : Prop :=
  (∀ k cd, alistLookup c.data k = some (CacheVal.record cd) → cd.sha256 = k) ∧
  alistLookup c.data "data-version" = some (CacheVal.ver HOOK_DATA_VERSION)

/-! ### Concrete fixtures used by the witness theorems -/

/-- Fixture: a project-origin task. -/
def wTaskA : TaskInfo := ⟨"a.aar", Origin.project, none⟩

/-- Fixture: a module-origin task (path of a different length than
`wTaskA`, so the fixture digests differ). -/
def wTaskB : TaskInfo := ⟨"bb.aar", Origin.module, some ⟨"test.module"⟩⟩

/-- Fixture: a task whose path has the same length as `wTaskA`, hence the
same fixture byte content and digest. -/
def wTaskA2 : TaskInfo := ⟨"c.aar", Origin.project, none⟩

/-- Fixture: a task whose input cannot be read. -/
def wTaskBad : TaskInfo := ⟨"bad.aar", Origin.project, none⟩

/-- Fixture: a task on which the external transformer fails. -/
def wTaskFail : TaskInfo := ⟨"fail.aar", Origin.project, none⟩

/-- Fixture environment: byte content is the path length (so equal-length
paths are byte-identical), the digest is `"h"` followed by the byte sum,
only `"exploded/live"` exists on disk, and the transformer declares
`"pkg." ++ path` except on `"fail.aar"` where it fails. -/
def wEnv : RunEnv where
  fileBytes p := if p = "bad.aar" then none else some [p.length]
  digestFn bs := "h" ++ toString (bs.foldl Nat.add 0)
  fsExists p := p = "exploded/live"
  transformFn t _ :=
    if t.aarPathAndFilename = "fail.aar" then Except.error "boom"
    else Except.ok ⟨"pkg." ++ t.aarPathAndFilename,
      "exploded/" ++ t.aarPathAndFilename, ["jar/" ++ t.aarPathAndFilename], []⟩

/-- Fixture: a cached record for `wTaskA` whose exploded directory still
exists. -/
def wHitRecord : LibraryInfo :=
  ⟨"cached.pkg", "exploded/live", [], [], "h5", wTaskA⟩

/-- Fixture: a run state holding only the cached record `wHitRecord`. -/
def wHitState : RunState :=
  ⟨⟨"cache/state.json", [("h5", CacheVal.record wHitRecord)]⟩, [], [], ⟨[], []⟩, []⟩

/-- Fixture: an empty builder. -/
def wBuilder : Builder := ⟨[], []⟩

/-- Fixture: a record persisted by an earlier run whose input is no longer
among the current tasks. -/
def wStaleRecord : LibraryInfo :=
  ⟨"old.pkg", "exploded/old", [], [], "hOld", wTaskB⟩

/-- The exact origin fragment `formatDupeInfo` appends for a task (empty for
the unused Core origin, which the scanners never produce). -/
def originDescription (t : TaskInfo) : String :=
  match t.originType with
  | Origin.module => ", origin: Module " ++
      (match t.moduleInfo with
       | some mi => mi.id
       | none => "")
  | Origin.project => ", origin: Project"
  | Origin.core => ""

/-- Fixture: a previously accepted record that declares the same package
name as the transform result of `wTaskB`. -/
def wConflictExisting : LibraryInfo :=
  ⟨"pkg.bb.aar", "exploded/x", [], [], "h5", wTaskA⟩

/-- Fixture: the record the fixture environment produces for `wTaskB`, which
collides with `wConflictExisting` on the declared package name. -/
def wConflictIncoming : LibraryInfo :=
  ⟨"pkg.bb.aar", "exploded/bb.aar", ["jar/bb.aar"], [], "h6", wTaskB⟩

/-- Fixture: a run state that has already accepted `wConflictExisting`. -/
def wConflictState : RunState :=
  ⟨⟨"cache/state.json", []⟩, [("h5", wConflictExisting)],
   [("pkg.bb.aar", wConflictExisting)], wBuilder, []⟩

/-- Fixture: a cache file from a prior successful run, holding the current
version tag and the stale record. -/
def wStaleFile : CacheFileState :=
  CacheFileState.valid [("data-version", CacheVal.ver "1"),
    ("hOld", CacheVal.record wStaleRecord)]

/-- Fixture: the record the fixture environment produces for `wTaskA`. -/
def wFreshRecordA : LibraryInfo :=
  ⟨"pkg.a.aar", "exploded/a.aar", ["jar/a.aar"], [], "h5", wTaskA⟩

/-- Fixture: the final state of the one-task run over `wStaleFile`. -/
def wC5Final : RunState :=
  ⟨⟨"cache/state.json", [("data-version", CacheVal.ver "1"),
      ("h5", CacheVal.record wFreshRecordA)]⟩,
   [("h5", wFreshRecordA)], [("pkg.a.aar", wFreshRecordA)],
   ⟨[], [wFreshRecordA]⟩, [wTaskA]⟩

/-- Fixture: the file operations of the one-task run over `wStaleFile`. -/
def wC5Ops : List FsOp :=
  [FsOp.mkdirRec "cache",
   FsOp.writeFile "cache/state.json"
     (encodeCache [("data-version", CacheVal.ver "1"),
       ("h5", CacheVal.record wFreshRecordA)])]

/-! ### Association-list lemmas -/

theorem alistLookup_set_self {α : Type} (d : List (String × α)) (k : String)
    (v : α) : alistLookup (alistSet d k v) k = some v := by
  induction d with
  | nil => simp [alistSet, alistLookup]
  | cons kv rest ih =>
    obtain ⟨k1, v1⟩ := kv
    by_cases h : k1 = k
    · simp [alistSet, alistLookup, h]
    · simp [alistSet, alistLookup, h, ih]

theorem alistLookup_set_ne {α : Type} (d : List (String × α)) (k k' : String)
    (v : α) (hne : k' ≠ k) :
    alistLookup (alistSet d k v) k' = alistLookup d k' := by
  have hne' : ¬ (k = k') := fun he => hne he.symm
  induction d with
  | nil => simp [alistSet, alistLookup, hne']
  | cons kv rest ih =>
    obtain ⟨k1, v1⟩ := kv
    by_cases h : k1 = k
    · subst h
      simp [alistSet, alistLookup, hne']
    · by_cases h2 : k1 = k'
      · simp [alistSet, alistLookup, h, h2, hne]
      · simp [alistSet, alistLookup, h, h2, ih]

theorem alistLookup_mem {α : Type} {d : List (String × α)} {k : String}
    {v : α} (h : alistLookup d k = some v) : (k, v) ∈ d := by
  induction d with
  | nil => simp [alistLookup] at h
  | cons kv rest ih =>
    obtain ⟨k1, v1⟩ := kv
    by_cases hk : k1 = k
    · subst hk
      simp only [alistLookup, if_pos rfl] at h
      cases h
      exact List.mem_cons_self _ _
    · simp only [alistLookup, if_neg hk] at h
      exact List.mem_cons_of_mem _ (ih h)

theorem mem_keys_of_lookup {α : Type} {d : List (String × α)} {k : String}
    {v : α} (h : alistLookup d k = some v) : k ∈ d.map Prod.fst := by
  exact List.mem_map.mpr ⟨(k, v), alistLookup_mem h, rfl⟩

theorem lookup_none_of_not_mem_keys {α : Type} {d : List (String × α)}
    {k : String} (h : k ∉ d.map Prod.fst) : alistLookup d k = none := by
  induction d with
  | nil => simp [alistLookup]
  | cons kv rest ih =>
    obtain ⟨k1, v1⟩ := kv
    simp only [List.map_cons, List.mem_cons] at h
    push_neg at h
    have h1 : ¬ (k1 = k) := fun he => h.1 he.symm
    simp [alistLookup, h1, ih h.2]

/-- Membership in the keys of a key-predicate filter. -/
theorem mem_keys_filter {α : Type} (d : List (String × α)) (p : String → Bool)
    (k : String) :
    (k ∈ (d.filter (fun kv => p kv.1)).map Prod.fst) ↔
      (k ∈ d.map Prod.fst ∧ p k = true) := by
  simp only [List.mem_map, List.mem_filter]
  constructor
  · rintro ⟨kv, ⟨hm, hp⟩, rfl⟩
    exact ⟨⟨kv, hm, rfl⟩, hp⟩
  · rintro ⟨⟨kv, hm, rfl⟩, hp⟩
    exact ⟨kv, ⟨hm, hp⟩, rfl⟩

theorem contains_true_iff (l : List String) (x : String) :
    l.contains x = true ↔ x ∈ l := List.elem_iff

/-! ### SimpleFileCache lemmas -/

theorem remove_data (c : SimpleFileCache) (k : String) :
    (c.remove k).data = c.data.filter (fun kv => !(kv.1 = k : Bool)) := rfl

theorem remove_path (c : SimpleFileCache) (k : String) :
    (c.remove k).cachePathAndFilename = c.cachePathAndFilename := rfl

theorem foldl_remove_data (L : List String) (c : SimpleFileCache) :
    (L.foldl (fun acc key => acc.remove key) c).data =
      c.data.filter (fun kv => !(L.contains kv.1)) := by
  induction L generalizing c with
  | nil => simp [List.filter]
  | cons a L ih =>
    simp only [List.foldl_cons, ih, remove_data, List.filter_filter]
    apply List.filter_congr
    intro kv _
    by_cases h : kv.1 = a
    · subst h
      simp
    · by_cases h2 : L.contains kv.1
      · simp [h, h2]
      · simp [h, h2, Ne.symm h]

theorem foldl_remove_path (L : List String) (c : SimpleFileCache) :
    (L.foldl (fun acc key => acc.remove key) c).cachePathAndFilename =
      c.cachePathAndFilename := by
  induction L generalizing c with
  | nil => rfl
  | cons a L ih => simp only [List.foldl_cons, ih, remove_path]

/-- The end-of-run cleanup keeps exactly the version key and this run's
hashes: entry-level characterization. -/
theorem cleanupCache_data (c : SimpleFileCache) (hs : List String) :
    (cleanupCache c hs).data =
      c.data.filter (fun kv => (kv.1 = "data-version" : Bool) || hs.contains kv.1) := by
  unfold cleanupCache
  rw [foldl_remove_data]
  apply List.filter_congr
  intro kv hkv
  have hmem : kv.1 ∈ c.keys := List.mem_map.mpr ⟨kv, hkv, rfl⟩
  have hiff : (c.keys.filter fun key =>
        if key = "data-version" then false else !(hs.contains key)).contains kv.1 = true ↔
      (kv.1 ∈ c.keys ∧ (if kv.1 = "data-version" then false
        else !(hs.contains kv.1)) = true) := by
    rw [contains_true_iff, List.mem_filter]
  by_cases hdv : kv.1 = "data-version"
  · have h1 : (c.keys.filter fun key =>
        if key = "data-version" then false else !(hs.contains key)).contains kv.1 = false := by
      rw [Bool.eq_false_iff]
      intro hx
      obtain ⟨-, hq⟩ := hiff.mp hx
      simp [hdv] at hq
    rw [h1]
    simp [hdv]
  · by_cases hin : hs.contains kv.1
    · have h1 : (c.keys.filter fun key =>
          if key = "data-version" then false else !(hs.contains key)).contains kv.1 = false := by
        rw [Bool.eq_false_iff]
        intro hx
        obtain ⟨-, hq⟩ := hiff.mp hx
        simp [hdv] at hq
        exact hq ((contains_true_iff hs kv.1).mp hin)
      rw [h1]
      simp [hdv]
      exact (contains_true_iff hs kv.1).mp hin
    · have h1 : (c.keys.filter fun key =>
          if key = "data-version" then false else !(hs.contains key)).contains kv.1 = true := by
        rw [hiff]
        refine ⟨hmem, ?_⟩
        simp [hdv, hin]
        simp at hin
        exact hin
      rw [h1]
      simp [hdv]
      simp at hin
      exact hin

theorem cleanupCache_path (c : SimpleFileCache) (hs : List String) :
    (cleanupCache c hs).cachePathAndFilename = c.cachePathAndFilename :=
  foldl_remove_path _ c

theorem setupCache_path (c : SimpleFileCache) :
    (setupCache c).cachePathAndFilename = c.cachePathAndFilename := by
  unfold setupCache
  by_cases h1 : c.has "data-version" <;>
    by_cases h2 : c.get "data-version" = some (CacheVal.ver HOOK_DATA_VERSION) <;>
      simp [h1, h2, SimpleFileCache.set, SimpleFileCache.flush]

/-! ### Substring containment -/

theorem containsSub_here (a sub b : String) : containsSub (a ++ sub ++ b) sub :=
  ⟨a, b, rfl⟩

theorem containsSub_self (s : String) : containsSub s s :=
  ⟨"", "", by simp⟩

theorem containsSub_appendL (x : String) {y sub : String}
    (h : containsSub y sub) : containsSub (x ++ y) sub := by
  obtain ⟨a, b, rfl⟩ := h
  exact ⟨x ++ a, b, by simp [String.append_assoc]⟩

theorem containsSub_appendR (y : String) {x sub : String}
    (h : containsSub x sub) : containsSub (x ++ y) sub := by
  obtain ⟨a, b, rfl⟩ := h
  exact ⟨a, b ++ y, by simp [String.append_assoc]⟩

/-! ### Step-level lemmas -/

theorem get_eq (c : SimpleFileCache) (k : String) :
    c.get k = alistLookup c.data k := by
  unfold SimpleFileCache.get SimpleFileCache.has
  cases h : alistLookup c.data k <;> simp [h]

theorem update_transformCalls (variant : Variant) (s : RunState)
    (l : LibraryInfo) :
    (updateBuilderWithTransformResult variant s l).transformCalls =
      s.transformCalls := rfl

theorem update_cache_path (variant : Variant) (s : RunState) (l : LibraryInfo) :
    (updateBuilderWithTransformResult variant s l).cache.cachePathAndFilename =
      s.cache.cachePathAndFilename := rfl

theorem append_singleton_ne {α : Type} (l : List α) (a : α) : l ++ [a] ≠ l := by
  intro h
  have := congrArg List.length h
  simp at this

/-- **C3.** For a task whose digest `h` is not yet in the duplicate registry,
the external transformer is not invoked exactly when the persistent cache has
an entry under `h` recording this task's input path whose exploded directory
still exists; on such a hit the cached record itself is committed, and in
every other case the transformer is invoked afresh. -/
theorem c3_cache_hit_iff_no_transform (env : RunEnv) (variant : Variant)
    (s : RunState) (t : TaskInfo) (h : String)
    (hh : hashFile env.fileBytes env.digestFn t.aarPathAndFilename = some h)
    (hfresh : alistLookup s.libraryHashMap h = none)
    (hwf : CacheWF s.cache) (hnv : h ≠ "data-version") :
    ((processTask env variant s t).state.transformCalls = s.transformCalls ↔
       hitCond env s.cache t h) ∧
    (∀ cd, alistLookup s.cache.data h = some (CacheVal.record cd) →
       cd.task.aarPathAndFilename = t.aarPathAndFilename →
       env.fsExists cd.explodedPath = true →
       alistLookup s.packageNameMap cd.packageName = none →
       processTask env variant s t =
         StepResult.ok (updateBuilderWithTransformResult variant s cd)) ∧
    (¬ hitCond env s.cache t h →
       (processTask env variant s t).state.transformCalls =
         s.transformCalls ++ [t]) := by
  have hstep : processTask env variant s t =
      match doTransform env variant s.cache t h with
      | TransformOutcome.typeErr => StepResult.stuck s
      | TransformOutcome.transformErr msg =>
          StepResult.fail (RunError.transformFailed msg)
            { s with transformCalls := s.transformCalls ++ [t] }
      | TransformOutcome.cacheHit l =>
          (match ensureUniquePackageName s.packageNameMap l with
           | Except.error e => StepResult.fail e s
           | Except.ok l =>
               StepResult.ok (updateBuilderWithTransformResult variant s l))
      | TransformOutcome.transformed l =>
          let s1 := { s with transformCalls := s.transformCalls ++ [t] }
          (match ensureUniquePackageName s1.packageNameMap l with
           | Except.error e => StepResult.fail e s1
           | Except.ok l =>
               StepResult.ok (updateBuilderWithTransformResult variant s1 l)) := by
    unfold processTask
    rw [hh]
    simp only [skipLibraryIfDuplicate, hfresh, Option.isSome_none,
      Bool.false_eq_true, if_false]
  cases hcv : alistLookup s.cache.data h with
  | none =>
    have hdo : doTransform env variant s.cache t h =
        match env.transformFn t variant with
        | Except.error msg => TransformOutcome.transformErr msg
        | Except.ok r =>
            TransformOutcome.transformed
              { packageName := r.packageName, explodedPath := r.explodedPath,
                jars := r.jars, nativeLibraries := r.nativeLibraries,
                sha256 := h, task := t } := by
      unfold doTransform
      rw [get_eq, hcv]
    have hnohit : ¬ hitCond env s.cache t h := by
      rintro ⟨cd, hlk, -, -⟩
      rw [hcv] at hlk
      cases hlk
    have hcalls : (processTask env variant s t).state.transformCalls =
        s.transformCalls ++ [t] := by
      rw [hstep, hdo]
      cases htr : env.transformFn t variant with
      | error msg => rfl
      | ok r =>
        simp only []
        cases hens : ensureUniquePackageName s.packageNameMap
            { packageName := r.packageName, explodedPath := r.explodedPath,
              jars := r.jars, nativeLibraries := r.nativeLibraries,
              sha256 := h, task := t } with
        | error e => simp [hens, StepResult.state]
        | ok l => simp [hens, StepResult.state, update_transformCalls]
    refine ⟨?_, ?_, fun _ => hcalls⟩
    · rw [hcalls]
      simp [hnohit, append_singleton_ne]
    · intro cd hlk
      cases hlk
  | some v =>
    cases v with
    | ver vs => exact absurd (hwf h vs hcv) hnv
    | record cd =>
      by_cases hb : (cd.task.aarPathAndFilename = t.aarPathAndFilename
          && env.fsExists cd.explodedPath) = true
      · have hdo : doTransform env variant s.cache t h =
            TransformOutcome.cacheHit cd := by
          unfold doTransform
          rw [get_eq, hcv]
          simp [hb]
        obtain ⟨hpath, hex⟩ := by
          simpa [Bool.and_eq_true] using hb
        have hhit : hitCond env s.cache t h := ⟨cd, hcv, by simpa using hpath, hex⟩
        have hcalls : (processTask env variant s t).state.transformCalls =
            s.transformCalls := by
          rw [hstep, hdo]
          cases hens : ensureUniquePackageName s.packageNameMap cd with
          | error e => simp [hens, StepResult.state]
          | ok l => simp [hens, StepResult.state, update_transformCalls]
        refine ⟨by simp [hcalls, hhit], ?_, fun hn => absurd hhit hn⟩
        intro cd' hlk hpath' hex' hpkg
        cases hlk
        rw [hstep, hdo]
        have hens : ensureUniquePackageName s.packageNameMap cd =
            Except.ok cd := by
          simp [ensureUniquePackageName, hpkg]
        simp [hens]
      · have hdo : doTransform env variant s.cache t h =
            match env.transformFn t variant with
            | Except.error msg => TransformOutcome.transformErr msg
            | Except.ok r =>
                TransformOutcome.transformed
                  { packageName := r.packageName, explodedPath := r.explodedPath,
                    jars := r.jars, nativeLibraries := r.nativeLibraries,
                    sha256 := h, task := t } := by
          unfold doTransform
          rw [get_eq, hcv]
          simp [hb]
        have hnohit : ¬ hitCond env s.cache t h := by
          rintro ⟨cd', hlk, hpath, hex⟩
          rw [hcv] at hlk
          cases hlk
          apply hb
          simp [Bool.and_eq_true, hpath, hex]
        have hcalls : (processTask env variant s t).state.transformCalls =
            s.transformCalls ++ [t] := by
          rw [hstep, hdo]
          cases htr : env.transformFn t variant with
          | error msg => rfl
          | ok r =>
            simp only []
            cases hens : ensureUniquePackageName s.packageNameMap
                { packageName := r.packageName, explodedPath := r.explodedPath,
                  jars := r.jars, nativeLibraries := r.nativeLibraries,
                  sha256 := h, task := t } with
            | error e => simp [hens, StepResult.state]
            | ok l => simp [hens, StepResult.state, update_transformCalls]
        refine ⟨?_, ?_, fun _ => hcalls⟩
        · rw [hcalls]
          simp [hnohit, append_singleton_ne]
        · intro cd' hlk hpath hex hpkg
          cases hlk
          exact absurd (by simp [Bool.and_eq_true, hpath, hex]) hb

/-- Witness for C3 at a concrete cache-hit input: the cached record for
`wTaskA` is reused and committed without invoking the transformer. -/
theorem c3_cache_hit_iff_no_transform_witness :
    processTask wEnv Variant.app wHitState wTaskA =
      StepResult.ok
        (updateBuilderWithTransformResult Variant.app wHitState wHitRecord) :=
  (c3_cache_hit_iff_no_transform wEnv Variant.app wHitState wTaskA "h5"
    (by decide) rfl
    (by
      intro k vs hkv
      simp only [wHitState, alistLookup] at hkv
      split at hkv
      · cases hkv
      · cases hkv)
    (by decide)).2.1 wHitRecord rfl rfl (by decide) rfl

/-! ### Generic per-task step lemmas -/

theorem processTask_skip (env : RunEnv) (variant : Variant) (s : RunState)
    (t : TaskInfo) (h : String) (prev : LibraryInfo)
    (hh : hashFile env.fileBytes env.digestFn t.aarPathAndFilename = some h)
    (hdup : alistLookup s.libraryHashMap h = some prev) :
    processTask env variant s t = StepResult.ok s := by
  unfold processTask
  rw [hh]
  simp [skipLibraryIfDuplicate, hdup]

theorem processTask_fresh (env : RunEnv) (variant : Variant) (s : RunState)
    (t : TaskInfo) (bs : List Nat) (r : TransformResult)
    (hb : env.fileBytes t.aarPathAndFilename = some bs)
    (hfresh : alistLookup s.libraryHashMap (env.digestFn bs) = none)
    (hcache : alistLookup s.cache.data (env.digestFn bs) = none)
    (htr : env.transformFn t variant = Except.ok r)
    (hpkg : alistLookup s.packageNameMap r.packageName = none) :
    processTask env variant s t =
      StepResult.ok (updateBuilderWithTransformResult variant
        { s with transformCalls := s.transformCalls ++ [t] }
        { packageName := r.packageName, explodedPath := r.explodedPath,
          jars := r.jars, nativeLibraries := r.nativeLibraries,
          sha256 := env.digestFn bs, task := t }) := by
  unfold processTask
  rw [show hashFile env.fileBytes env.digestFn t.aarPathAndFilename =
    some (env.digestFn bs) from by simp [hashFile, hb]]
  have hdo : doTransform env variant s.cache t (env.digestFn bs) =
      TransformOutcome.transformed
        { packageName := r.packageName, explodedPath := r.explodedPath,
          jars := r.jars, nativeLibraries := r.nativeLibraries,
          sha256 := env.digestFn bs, task := t } := by
    unfold doTransform
    rw [get_eq, hcache, htr]
  have hens : ensureUniquePackageName s.packageNameMap
      { packageName := r.packageName, explodedPath := r.explodedPath,
        jars := r.jars, nativeLibraries := r.nativeLibraries,
        sha256 := env.digestFn bs, task := t } =
      Except.ok
        { packageName := r.packageName, explodedPath := r.explodedPath,
          jars := r.jars, nativeLibraries := r.nativeLibraries,
          sha256 := env.digestFn bs, task := t } := by
    simp [ensureUniquePackageName, hpkg]
  simp only [skipLibraryIfDuplicate, hfresh, Option.isSome_none,
    Bool.false_eq_true, if_false, hdo, hens]

theorem processTask_transformErr (env : RunEnv) (variant : Variant)
    (s : RunState) (t : TaskInfo) (bs : List Nat) (msg : String)
    (hb : env.fileBytes t.aarPathAndFilename = some bs)
    (hfresh : alistLookup s.libraryHashMap (env.digestFn bs) = none)
    (hcache : alistLookup s.cache.data (env.digestFn bs) = none)
    (htr : env.transformFn t variant = Except.error msg) :
    processTask env variant s t =
      StepResult.fail (RunError.transformFailed msg)
        { s with transformCalls := s.transformCalls ++ [t] } := by
  unfold processTask
  rw [show hashFile env.fileBytes env.digestFn t.aarPathAndFilename =
    some (env.digestFn bs) from by simp [hashFile, hb]]
  have hdo : doTransform env variant s.cache t (env.digestFn bs) =
      TransformOutcome.transformErr msg := by
    unfold doTransform
    rw [get_eq, hcache, htr]
  simp only [skipLibraryIfDuplicate, hfresh, Option.isSome_none,
    Bool.false_eq_true, if_false, hdo]

theorem processTask_fresh_conflict (env : RunEnv) (variant : Variant)
    (s : RunState) (t : TaskInfo) (bs : List Nat) (r : TransformResult)
    (existing : LibraryInfo)
    (hb : env.fileBytes t.aarPathAndFilename = some bs)
    (hfresh : alistLookup s.libraryHashMap (env.digestFn bs) = none)
    (hcache : alistLookup s.cache.data (env.digestFn bs) = none)
    (htr : env.transformFn t variant = Except.ok r)
    (hpkg : alistLookup s.packageNameMap r.packageName = some existing) :
    processTask env variant s t =
      StepResult.fail
        (RunError.conflict (conflictErrorMessage existing
          { packageName := r.packageName, explodedPath := r.explodedPath,
            jars := r.jars, nativeLibraries := r.nativeLibraries,
            sha256 := env.digestFn bs, task := t }))
        { s with transformCalls := s.transformCalls ++ [t] } := by
  unfold processTask
  rw [show hashFile env.fileBytes env.digestFn t.aarPathAndFilename =
    some (env.digestFn bs) from by simp [hashFile, hb]]
  have hdo : doTransform env variant s.cache t (env.digestFn bs) =
      TransformOutcome.transformed
        { packageName := r.packageName, explodedPath := r.explodedPath,
          jars := r.jars, nativeLibraries := r.nativeLibraries,
          sha256 := env.digestFn bs, task := t } := by
    unfold doTransform
    rw [get_eq, hcache, htr]
  have hens : ensureUniquePackageName s.packageNameMap
      { packageName := r.packageName, explodedPath := r.explodedPath,
        jars := r.jars, nativeLibraries := r.nativeLibraries,
        sha256 := env.digestFn bs, task := t } =
      Except.error (RunError.conflict (conflictErrorMessage existing
        { packageName := r.packageName, explodedPath := r.explodedPath,
          jars := r.jars, nativeLibraries := r.nativeLibraries,
          sha256 := env.digestFn bs, task := t })) := by
    simp [ensureUniquePackageName, hpkg]
  simp only [skipLibraryIfDuplicate, hfresh, Option.isSome_none,
    Bool.false_eq_true, if_false, hdo, hens]

theorem processTask_hit_conflict (env : RunEnv) (variant : Variant)
    (s : RunState) (t : TaskInfo) (h : String) (cd existing : LibraryInfo)
    (hh : hashFile env.fileBytes env.digestFn t.aarPathAndFilename = some h)
    (hfresh : alistLookup s.libraryHashMap h = none)
    (hcv : alistLookup s.cache.data h = some (CacheVal.record cd))
    (hpath : cd.task.aarPathAndFilename = t.aarPathAndFilename)
    (hex : env.fsExists cd.explodedPath = true)
    (hpkg : alistLookup s.packageNameMap cd.packageName = some existing) :
    processTask env variant s t =
      StepResult.fail
        (RunError.conflict (conflictErrorMessage existing cd)) s := by
  unfold processTask
  rw [hh]
  have hdo : doTransform env variant s.cache t h =
      TransformOutcome.cacheHit cd := by
    unfold doTransform
    rw [get_eq, hcv]
    simp [hpath, hex]
  have hens : ensureUniquePackageName s.packageNameMap cd =
      Except.error (RunError.conflict (conflictErrorMessage existing cd)) := by
    simp [ensureUniquePackageName, hpkg]
  simp only [skipLibraryIfDuplicate, hfresh, Option.isSome_none,
    Bool.false_eq_true, if_false, hdo, hens]

theorem update_androidLibraries (variant : Variant) (s : RunState)
    (l : LibraryInfo) :
    (updateBuilderWithTransformResult variant s l).builder.androidLibraries =
      s.builder.androidLibraries ++ [l] := by
  cases variant <;> rfl

theorem update_libraryHashMap (variant : Variant) (s : RunState)
    (l : LibraryInfo) :
    (updateBuilderWithTransformResult variant s l).libraryHashMap =
      alistSet s.libraryHashMap l.sha256 l := rfl

theorem update_packageNameMap (variant : Variant) (s : RunState)
    (l : LibraryInfo) :
    (updateBuilderWithTransformResult variant s l).packageNameMap =
      alistSet s.packageNameMap l.packageName l := rfl

theorem update_cache (variant : Variant) (s : RunState) (l : LibraryInfo) :
    (updateBuilderWithTransformResult variant s l).cache =
      s.cache.set l.sha256 (CacheVal.record l) := rfl

theorem set_data (c : SimpleFileCache) (k : String) (v : CacheVal) :
    (SimpleFileCache.set c k v).data = alistSet c.data k v := rfl

/-! ### Run-assembly lemmas -/

theorem transformAndroidLibraries_ok (env : RunEnv) (variant : Variant)
    (builder0 : Builder) (cfs : CacheFileState) (cp : String) (s2 : RunState)
    (t0 : TaskInfo) (rest : List TaskInfo)
    (hloop : runTasksLoop env variant
      { cache := setupCache (SimpleFileCache.load cp cfs).cache,
        libraryHashMap := [], packageNameMap := [], builder := builder0,
        transformCalls := [] } (t0 :: rest) = StepResult.ok s2) :
    transformAndroidLibraries env (t0 :: rest) builder0 variant cfs cp =
      (RunResult.ok
        { s2 with cache := cleanupCache s2.cache (s2.libraryHashMap.map Prod.fst) },
       (if (SimpleFileCache.load cp cfs).removedFile then [FsOp.unlink cp] else []) ++
         (cleanupCache s2.cache (s2.libraryHashMap.map Prod.fst)).persistOps) := by
  unfold transformAndroidLibraries
  dsimp only
  rw [hloop]

theorem transformAndroidLibraries_fail (env : RunEnv) (variant : Variant)
    (builder0 : Builder) (cfs : CacheFileState) (cp : String) (e : RunError)
    (s2 : RunState) (t0 : TaskInfo) (rest : List TaskInfo)
    (hloop : runTasksLoop env variant
      { cache := setupCache (SimpleFileCache.load cp cfs).cache,
        libraryHashMap := [], packageNameMap := [], builder := builder0,
        transformCalls := [] } (t0 :: rest) = StepResult.fail e s2) :
    transformAndroidLibraries env (t0 :: rest) builder0 variant cfs cp =
      (RunResult.err e s2,
       if (SimpleFileCache.load cp cfs).removedFile then [FsOp.unlink cp] else []) := by
  unfold transformAndroidLibraries
  dsimp only
  rw [hloop]

theorem transformAndroidLibraries_stuck (env : RunEnv) (variant : Variant)
    (builder0 : Builder) (cfs : CacheFileState) (cp : String)
    (s2 : RunState) (t0 : TaskInfo) (rest : List TaskInfo)
    (hloop : runTasksLoop env variant
      { cache := setupCache (SimpleFileCache.load cp cfs).cache,
        libraryHashMap := [], packageNameMap := [], builder := builder0,
        transformCalls := [] } (t0 :: rest) = StepResult.stuck s2) :
    transformAndroidLibraries env (t0 :: rest) builder0 variant cfs cp =
      (RunResult.crash s2,
       if (SimpleFileCache.load cp cfs).removedFile then [FsOp.unlink cp] else []) := by
  unfold transformAndroidLibraries
  dsimp only
  rw [hloop]

/-- **C4.** A task whose digest is already in the duplicate registry is
skipped entirely: no transform, no record, and the skip signal is consumed at
the per-task boundary so the run continues; consequently two distinct input
paths with byte-identical content yield exactly one record in the output
list, with the transformer invoked once. -/
theorem c4_duplicate_elision (env : RunEnv) (variant : Variant)
    (builder0 : Builder) (cp : String) (t1 t2 : TaskInfo) (bs : List Nat)
    (r : TransformResult)
    (hb1 : env.fileBytes t1.aarPathAndFilename = some bs)
    (hb2 : env.fileBytes t2.aarPathAndFilename = some bs)
    (hne : t1.aarPathAndFilename ≠ t2.aarPathAndFilename)
    (htr : env.transformFn t1 variant = Except.ok r)
    (hnv : env.digestFn bs ≠ "data-version") :
    (∀ s t h prev,
       hashFile env.fileBytes env.digestFn t.aarPathAndFilename = some h →
       alistLookup s.libraryHashMap h = some prev →
       processTask env variant s t = StepResult.ok s) ∧
    (∃ sF ops,
       transformAndroidLibraries env [t1, t2] builder0 variant
         CacheFileState.absent cp = (RunResult.ok sF, ops) ∧
       sF.builder.androidLibraries = builder0.androidLibraries ++
         [{ packageName := r.packageName, explodedPath := r.explodedPath,
            jars := r.jars, nativeLibraries := r.nativeLibraries,
            sha256 := env.digestFn bs, task := t1 }] ∧
       sF.transformCalls = [t1]) := by
  constructor
  · intro s t h prev hh hdup
    exact processTask_skip env variant s t h prev hh hdup
  · have hdvh : ¬ ("data-version" = env.digestFn bs) := fun he => hnv he.symm
    have hsetup : setupCache ⟨cp, []⟩ =
        ⟨cp, [("data-version", CacheVal.ver HOOK_DATA_VERSION)]⟩ := by
      simp [setupCache, SimpleFileCache.has, SimpleFileCache.set,
        SimpleFileCache.get, alistLookup, alistSet]
    have hstep1 : processTask env variant
        { cache := ⟨cp, [("data-version", CacheVal.ver HOOK_DATA_VERSION)]⟩,
          libraryHashMap := [], packageNameMap := [], builder := builder0,
          transformCalls := [] } t1 =
        StepResult.ok (updateBuilderWithTransformResult variant
          { cache := ⟨cp, [("data-version", CacheVal.ver HOOK_DATA_VERSION)]⟩,
            libraryHashMap := [], packageNameMap := [], builder := builder0,
            transformCalls := [t1] }
          { packageName := r.packageName, explodedPath := r.explodedPath,
            jars := r.jars, nativeLibraries := r.nativeLibraries,
            sha256 := env.digestFn bs, task := t1 }) :=
      processTask_fresh env variant
        { cache := ⟨cp, [("data-version", CacheVal.ver HOOK_DATA_VERSION)]⟩,
          libraryHashMap := [], packageNameMap := [], builder := builder0,
          transformCalls := [] } t1 bs r hb1 rfl
        (by simp [alistLookup, hdvh]) htr rfl
    have hstep2 : processTask env variant
        (updateBuilderWithTransformResult variant
          { cache := ⟨cp, [("data-version", CacheVal.ver HOOK_DATA_VERSION)]⟩,
            libraryHashMap := [], packageNameMap := [], builder := builder0,
            transformCalls := [t1] }
          { packageName := r.packageName, explodedPath := r.explodedPath,
            jars := r.jars, nativeLibraries := r.nativeLibraries,
            sha256 := env.digestFn bs, task := t1 }) t2 =
        StepResult.ok (updateBuilderWithTransformResult variant
          { cache := ⟨cp, [("data-version", CacheVal.ver HOOK_DATA_VERSION)]⟩,
            libraryHashMap := [], packageNameMap := [], builder := builder0,
            transformCalls := [t1] }
          { packageName := r.packageName, explodedPath := r.explodedPath,
            jars := r.jars, nativeLibraries := r.nativeLibraries,
            sha256 := env.digestFn bs, task := t1 }) :=
      processTask_skip env variant _ t2 (env.digestFn bs)
        { packageName := r.packageName, explodedPath := r.explodedPath,
          jars := r.jars, nativeLibraries := r.nativeLibraries,
          sha256 := env.digestFn bs, task := t1 }
        (by simp [hashFile, hb2])
        (by rw [update_libraryHashMap]; simp [alistSet, alistLookup])
    have hloop : runTasksLoop env variant
        { cache := ⟨cp, [("data-version", CacheVal.ver HOOK_DATA_VERSION)]⟩,
          libraryHashMap := [], packageNameMap := [], builder := builder0,
          transformCalls := [] } [t1, t2] =
        StepResult.ok (updateBuilderWithTransformResult variant
          { cache := ⟨cp, [("data-version", CacheVal.ver HOOK_DATA_VERSION)]⟩,
            libraryHashMap := [], packageNameMap := [], builder := builder0,
            transformCalls := [t1] }
          { packageName := r.packageName, explodedPath := r.explodedPath,
            jars := r.jars, nativeLibraries := r.nativeLibraries,
            sha256 := env.digestFn bs, task := t1 }) := by
      simp only [runTasksLoop, hstep1, hstep2]
    have hrun := transformAndroidLibraries_ok env variant builder0
      CacheFileState.absent cp _ t1 [t2] hloop
    exact ⟨_, _, hrun, by simp [update_androidLibraries],
      by simp [update_transformCalls]⟩

/-- Witness for C4: two fixture tasks with byte-identical content produce a
single record and a single transformer invocation. -/
theorem c4_duplicate_elision_witness :
    ∃ sF ops,
      transformAndroidLibraries wEnv [wTaskA, wTaskA2] wBuilder Variant.app
        CacheFileState.absent "cache/state.json" = (RunResult.ok sF, ops) ∧
      sF.builder.androidLibraries = wBuilder.androidLibraries ++
        [{ packageName := "pkg.a.aar", explodedPath := "exploded/a.aar",
           jars := ["jar/a.aar"], nativeLibraries := [],
           sha256 := wEnv.digestFn [5], task := wTaskA }] ∧
      sF.transformCalls = [wTaskA] :=
  (c4_duplicate_elision wEnv Variant.app wBuilder "cache/state.json"
    wTaskA wTaskA2 [5]
    { packageName := "pkg.a.aar", explodedPath := "exploded/a.aar",
      jars := ["jar/a.aar"], nativeLibraries := [] }
    (by decide) (by decide) (by decide) rfl (by decide)).2

/-- Sequential processing of a task list in which every task is readable,
transforms successfully, and is fresh (digest and package name unseen, no
cache entry under its digest): the loop succeeds and invokes the transformer
once per task, in order. -/
theorem runTasksLoop_all_fresh (env : RunEnv) (variant : Variant) :
    ∀ (tasks : List TaskInfo) (s : RunState),
    (∀ t ∈ tasks, ∃ bs r, env.fileBytes t.aarPathAndFilename = some bs ∧
       env.transformFn t variant = Except.ok r ∧
       alistLookup s.libraryHashMap (env.digestFn bs) = none ∧
       alistLookup s.cache.data (env.digestFn bs) = none ∧
       alistLookup s.packageNameMap r.packageName = none) →
    List.Pairwise (fun a b => digestOf env a ≠ digestOf env b) tasks →
    List.Pairwise (fun a b => pkgOf env variant a ≠ pkgOf env variant b) tasks →
    ∃ s', runTasksLoop env variant s tasks = StepResult.ok s' ∧
      s'.transformCalls = s.transformCalls ++ tasks
  | [], s => by
    intro _ _ _
    exact ⟨s, rfl, by simp⟩
  | t :: rest, s => by
    intro hall hdig hpkg
    obtain ⟨bs, r, hb, htr, hfresh, hcache, hp⟩ := hall t (List.mem_cons_self t rest)
    have hstep := processTask_fresh env variant s t bs r hb hfresh hcache htr hp
    rw [List.pairwise_cons] at hdig hpkg
    have hall2 : ∀ t' ∈ rest, ∃ bs' r',
        env.fileBytes t'.aarPathAndFilename = some bs' ∧
        env.transformFn t' variant = Except.ok r' ∧
        alistLookup (updateBuilderWithTransformResult variant
          { s with transformCalls := s.transformCalls ++ [t] }
          { packageName := r.packageName, explodedPath := r.explodedPath,
            jars := r.jars, nativeLibraries := r.nativeLibraries,
            sha256 := env.digestFn bs, task := t }).libraryHashMap
          (env.digestFn bs') = none ∧
        alistLookup (updateBuilderWithTransformResult variant
          { s with transformCalls := s.transformCalls ++ [t] }
          { packageName := r.packageName, explodedPath := r.explodedPath,
            jars := r.jars, nativeLibraries := r.nativeLibraries,
            sha256 := env.digestFn bs, task := t }).cache.data
          (env.digestFn bs') = none ∧
        alistLookup (updateBuilderWithTransformResult variant
          { s with transformCalls := s.transformCalls ++ [t] }
          { packageName := r.packageName, explodedPath := r.explodedPath,
            jars := r.jars, nativeLibraries := r.nativeLibraries,
            sha256 := env.digestFn bs, task := t }).packageNameMap
          r'.packageName = none := by
      intro t' ht'
      obtain ⟨bs', r', hb', htr', hfresh', hcache', hp'⟩ :=
        hall t' (List.mem_cons_of_mem t ht')
      have hdne : env.digestFn bs ≠ env.digestFn bs' := by
        intro he
        apply hdig.1 t' ht'
        simp only [digestOf, hashFile, hb, hb']
        simp [he]
      have hpne : r.packageName ≠ r'.packageName := by
        intro he
        apply hpkg.1 t' ht'
        simp only [pkgOf, htr, htr']
        simp [he]
      refine ⟨bs', r', hb', htr', ?_, ?_, ?_⟩
      · rw [update_libraryHashMap,
          alistLookup_set_ne _ _ _ _ (fun he => hdne he.symm)]
        exact hfresh'
      · rw [update_cache, set_data,
          alistLookup_set_ne _ _ _ _ (fun he => hdne he.symm)]
        exact hcache'
      · rw [update_packageNameMap,
          alistLookup_set_ne _ _ _ _ (fun he => hpne he.symm)]
        exact hp'
    obtain ⟨s', hloop, htc⟩ := runTasksLoop_all_fresh env variant rest
      (updateBuilderWithTransformResult variant
        { s with transformCalls := s.transformCalls ++ [t] }
        { packageName := r.packageName, explodedPath := r.explodedPath,
          jars := r.jars, nativeLibraries := r.nativeLibraries,
          sha256 := env.digestFn bs, task := t }) hall2 hdig.2 hpkg.2
    refine ⟨s', ?_, ?_⟩
    · show runTasksLoop env variant s (t :: rest) = StepResult.ok s'
      rw [show runTasksLoop env variant s (t :: rest) =
        (match processTask env variant s t with
         | StepResult.ok s1 => runTasksLoop env variant s1 rest
         | StepResult.fail e s1 => StepResult.fail e s1
         | StepResult.stuck s1 => StepResult.stuck s1) from rfl]
      rw [hstep]
      exact hloop
    · rw [htc, update_transformCalls]
      simp

/-- **C2.** A stored `data-version` entry different from the current
`HOOK_DATA_VERSION` makes the cache flush all entries before any task runs,
after which the reserved key holds the current version; consequently no
cache reuse survives the version change and the transformer is invoked for
every input of the run. -/
theorem c2_version_mismatch_invalidates (env : RunEnv) (variant : Variant)
    (builder0 : Builder) (cp : String) (d : List (String × CacheVal))
    (v : String) (t0 : TaskInfo) (rest : List TaskInfo)
    (hold : alistLookup d "data-version" = some (CacheVal.ver v))
    (hv : v ≠ HOOK_DATA_VERSION)
    (hfr : ∀ t ∈ t0 :: rest, ∃ bs r,
       env.fileBytes t.aarPathAndFilename = some bs ∧
       env.transformFn t variant = Except.ok r ∧
       env.digestFn bs ≠ "data-version")
    (hdig : List.Pairwise (fun a b => digestOf env a ≠ digestOf env b) (t0 :: rest))
    (hpkg : List.Pairwise (fun a b => pkgOf env variant a ≠ pkgOf env variant b)
      (t0 :: rest)) :
    setupCache (SimpleFileCache.load cp (CacheFileState.valid d)).cache =
      ⟨cp, [("data-version", CacheVal.ver HOOK_DATA_VERSION)]⟩ ∧
    ∃ s' ops, transformAndroidLibraries env (t0 :: rest) builder0 variant
        (CacheFileState.valid d) cp = (RunResult.ok s', ops) ∧
      s'.transformCalls = t0 :: rest := by
  have hsetup : setupCache (SimpleFileCache.load cp (CacheFileState.valid d)).cache =
      ⟨cp, [("data-version", CacheVal.ver HOOK_DATA_VERSION)]⟩ := by
    simp [setupCache, SimpleFileCache.load, SimpleFileCache.has,
      SimpleFileCache.get, hold, SimpleFileCache.flush, SimpleFileCache.set,
      alistSet, hv]
  refine ⟨hsetup, ?_⟩
  obtain ⟨s', hloop, htc⟩ := runTasksLoop_all_fresh env variant (t0 :: rest)
    { cache := setupCache (SimpleFileCache.load cp (CacheFileState.valid d)).cache,
      libraryHashMap := [], packageNameMap := [], builder := builder0,
      transformCalls := [] }
    (by
      intro t ht
      obtain ⟨bs, r, hb, htr, hne⟩ := hfr t ht
      have hne' : ¬ ("data-version" = env.digestFn bs) := fun he => hne he.symm
      refine ⟨bs, r, hb, htr, rfl, ?_, rfl⟩
      show alistLookup (setupCache (SimpleFileCache.load cp
        (CacheFileState.valid d)).cache).data (env.digestFn bs) = none
      rw [hsetup]
      simp [alistLookup, hne'])
    hdig hpkg
  have hrun := transformAndroidLibraries_ok env variant builder0
    (CacheFileState.valid d) cp s' t0 rest hloop
  exact ⟨_, _, hrun, by simp [htc]⟩

/-- Witness for C2: a cache persisted with version tag `"0"` is flushed and
both fixture inputs are transformed again. -/
theorem c2_version_mismatch_invalidates_witness :
    setupCache (SimpleFileCache.load "cache/state.json"
      (CacheFileState.valid [("data-version", CacheVal.ver "0"),
        ("h5", CacheVal.record wHitRecord)])).cache =
      ⟨"cache/state.json", [("data-version", CacheVal.ver HOOK_DATA_VERSION)]⟩ ∧
    ∃ s' ops, transformAndroidLibraries wEnv [wTaskA, wTaskB] wBuilder
        Variant.app
        (CacheFileState.valid [("data-version", CacheVal.ver "0"),
          ("h5", CacheVal.record wHitRecord)])
        "cache/state.json" = (RunResult.ok s', ops) ∧
      s'.transformCalls = [wTaskA, wTaskB] :=
  c2_version_mismatch_invalidates wEnv Variant.app wBuilder "cache/state.json"
    [("data-version", CacheVal.ver "0"), ("h5", CacheVal.record wHitRecord)]
    "0" wTaskA [wTaskB] (by decide) (by decide)
    (by
      intro t ht
      simp only [List.mem_cons, List.not_mem_nil, or_false] at ht
      rcases ht with rfl | rfl
      · exact ⟨[5], ({ packageName := "pkg.a.aar",
                       explodedPath := "exploded/a.aar",
                       jars := ["jar/a.aar"],
                       nativeLibraries := [] } : TransformResult),
          by decide, rfl, by decide⟩
      · exact ⟨[6], ({ packageName := "pkg.bb.aar",
                       explodedPath := "exploded/bb.aar",
                       jars := ["jar/bb.aar"],
                       nativeLibraries := [] } : TransformResult),
          by decide, rfl, by decide⟩)
    (by
      refine List.Pairwise.cons ?_ (List.Pairwise.cons ?_ List.Pairwise.nil)
      · intro t' ht'
        simp only [List.mem_cons, List.not_mem_nil, or_false] at ht'
        subst ht'
        decide
      · intro t' ht'
        simp at ht')
    (by
      refine List.Pairwise.cons ?_ (List.Pairwise.cons ?_ List.Pairwise.nil)
      · intro t' ht'
        simp only [List.mem_cons, List.not_mem_nil, or_false] at ht'
        subst ht'
        decide
      · intro t' ht'
        simp at ht')

/-- The single commit step preserves the registry invariant, given the
unique-package-name check passed for the committed record. -/
theorem regInv_commit (variant : Variant) (s : RunState) (l : LibraryInfo)
    (hinv : RegInv s)
    (hpkg : alistLookup s.packageNameMap l.packageName = none) :
    RegInv (updateBuilderWithTransformResult variant s l) := by
  obtain ⟨h1, h2, h3⟩ := hinv
  refine ⟨?_, ?_, ?_⟩
  · intro k x hk
    rw [update_libraryHashMap] at hk
    by_cases hke : k = l.sha256
    · subst hke
      rw [alistLookup_set_self] at hk
      cases hk
      rfl
    · rw [alistLookup_set_ne _ _ _ _ hke] at hk
      exact h1 k x hk
  · intro k x hk
    rw [update_packageNameMap] at hk
    by_cases hke : k = l.packageName
    · subst hke
      rw [alistLookup_set_self] at hk
      cases hk
      rfl
    · rw [alistLookup_set_ne _ _ _ _ hke] at hk
      exact h2 k x hk
  · intro k x hk
    rw [update_libraryHashMap] at hk
    by_cases hke : k = l.sha256
    · subst hke
      rw [alistLookup_set_self] at hk
      cases hk
      refine ⟨?_, ?_, ?_⟩
      · rw [update_packageNameMap, alistLookup_set_self]
      · rw [update_androidLibraries]
        exact List.mem_append_right _ (List.mem_singleton.mpr rfl)
      · rw [update_cache, set_data, alistLookup_set_self]
    · rw [alistLookup_set_ne _ _ _ _ hke] at hk
      obtain ⟨hp3, hm3, hc3⟩ := h3 k x hk
      have hxk : x.sha256 = k := h1 k x hk
      have hpne : x.packageName ≠ l.packageName := by
        intro he
        rw [he] at hp3
        rw [hp3] at hpkg
        cases hpkg
      refine ⟨?_, ?_, ?_⟩
      · rw [update_packageNameMap, alistLookup_set_ne _ _ _ _ hpne]
        exact hp3
      · rw [update_androidLibraries]
        exact List.mem_append_left _ hm3
      · rw [update_cache, set_data,
          alistLookup_set_ne _ _ _ _ (by rw [hxk]; exact hke)]
        exact hc3

/-- **C10.** The run-scoped registries, the builder output list and the cache
stay mutually consistent: the invariant `RegInv` holds for the initial state
of a run (empty registries) and is preserved by every completed task, since
the four structures are updated together in the single commit step. -/
theorem c10_registries_consistent (env : RunEnv) (variant : Variant) :
    (∀ c b, RegInv ⟨c, [], [], b, []⟩) ∧
    (∀ s t s', RegInv s → processTask env variant s t = StepResult.ok s' →
      RegInv s') := by
  constructor
  · intro c b
    refine ⟨?_, ?_, ?_⟩
    · intro k x hk
      cases hk
    · intro k x hk
      cases hk
    · intro k x hk
      cases hk
  · intro s t s' hinv hstep
    unfold processTask at hstep
    cases hh : hashFile env.fileBytes env.digestFn t.aarPathAndFilename with
    | none =>
      rw [hh] at hstep
      cases hstep
    | some h =>
      rw [hh] at hstep
      cases hsk : alistLookup s.libraryHashMap h with
      | some prev =>
        simp only [skipLibraryIfDuplicate, hsk, Option.isSome_some,
          if_true] at hstep
        cases hstep
        exact hinv
      | none =>
        simp only [skipLibraryIfDuplicate, hsk, Option.isSome_none,
          Bool.false_eq_true, if_false] at hstep
        cases hdo : doTransform env variant s.cache t h with
        | typeErr =>
          rw [hdo] at hstep
          cases hstep
        | transformErr msg =>
          rw [hdo] at hstep
          cases hstep
        | cacheHit cd =>
          rw [hdo] at hstep
          cases hlp : alistLookup s.packageNameMap cd.packageName with
          | some existing =>
            simp only [ensureUniquePackageName, hlp] at hstep
            cases hstep
          | none =>
            simp only [ensureUniquePackageName, hlp] at hstep
            cases hstep
            exact regInv_commit variant s cd hinv hlp
        | transformed l =>
          rw [hdo] at hstep
          cases hlp : alistLookup s.packageNameMap l.packageName with
          | some existing =>
            simp only [ensureUniquePackageName, hlp] at hstep
            cases hstep
          | none =>
            simp only [ensureUniquePackageName, hlp] at hstep
            cases hstep
            exact regInv_commit variant
              { s with transformCalls := s.transformCalls ++ [t] } l
              ⟨hinv.1, hinv.2.1, hinv.2.2⟩ hlp

/-- Witness for C10: the invariant holds after the concrete cache-hit commit
of the fixture run state. -/
theorem c10_registries_consistent_witness :
    RegInv (updateBuilderWithTransformResult Variant.app wHitState wHitRecord) :=
  (c10_registries_consistent wEnv Variant.app).2 wHitState wTaskA
    (updateBuilderWithTransformResult Variant.app wHitState wHitRecord)
    ((c10_registries_consistent wEnv Variant.app).1 wHitState.cache
      wHitState.builder)
    rfl

/-! ### Cache-invariant lemmas -/

theorem alistLookup_filter {α : Type} (d : List (String × α)) (p : String → Bool)
    (k : String) (hp : p k = true) :
    alistLookup (d.filter (fun kv => p kv.1)) k = alistLookup d k := by
  induction d with
  | nil => rfl
  | cons kv rest ih =>
    obtain ⟨k1, v1⟩ := kv
    by_cases hpk : p k1
    · by_cases hk : k1 = k
      · subst hk
        simp [List.filter_cons, hpk, alistLookup]
      · simp [List.filter_cons, hpk, alistLookup, hk, ih]
    · by_cases hk : k1 = k
      · subst hk
        rw [hp] at hpk
        cases hpk rfl
      · simp [List.filter_cons, hpk, alistLookup, hk, ih]

theorem doTransform_cacheHit_inv (env : RunEnv) (variant : Variant)
    (c : SimpleFileCache) (t : TaskInfo) (h : String) (cd : LibraryInfo)
    (hdo : doTransform env variant c t h = TransformOutcome.cacheHit cd) :
    alistLookup c.data h = some (CacheVal.record cd) := by
  unfold doTransform at hdo
  rw [get_eq] at hdo
  cases hlk : alistLookup c.data h with
  | none =>
    rw [hlk] at hdo
    cases htr : env.transformFn t variant <;> rw [htr] at hdo <;> cases hdo
  | some v =>
    cases v with
    | ver vs =>
      rw [hlk] at hdo
      cases hdo
    | record cd' =>
      rw [hlk] at hdo
      dsimp only at hdo
      by_cases hb : (decide (cd'.task.aarPathAndFilename = t.aarPathAndFilename)
          && env.fsExists cd'.explodedPath) = true
      · rw [if_pos hb] at hdo
        cases hdo
        rfl
      · rw [if_neg hb] at hdo
        cases htr : env.transformFn t variant <;> rw [htr] at hdo <;> cases hdo

theorem doTransform_transformed_inv (env : RunEnv) (variant : Variant)
    (c : SimpleFileCache) (t : TaskInfo) (h : String) (l : LibraryInfo)
    (hdo : doTransform env variant c t h = TransformOutcome.transformed l) :
    l.sha256 = h := by
  unfold doTransform at hdo
  rw [get_eq] at hdo
  cases hlk : alistLookup c.data h with
  | none =>
    rw [hlk] at hdo
    cases htr : env.transformFn t variant <;> rw [htr] at hdo
    · cases hdo
    · cases hdo
      rfl
  | some v =>
    cases v with
    | ver vs =>
      rw [hlk] at hdo
      cases hdo
    | record cd' =>
      rw [hlk] at hdo
      dsimp only at hdo
      by_cases hb : (decide (cd'.task.aarPathAndFilename = t.aarPathAndFilename)
          && env.fsExists cd'.explodedPath) = true
      · rw [if_pos hb] at hdo
        cases hdo
      · rw [if_neg hb] at hdo
        cases htr : env.transformFn t variant <;> rw [htr] at hdo
        · cases hdo
        · cases hdo
          rfl

/-- The post-construction version check establishes the cache invariant on
any loaded map whose record entries are keyed by their digests. -/
theorem cacheInv_setup (c : SimpleFileCache)
    (hrec : ∀ k cd, alistLookup c.data k = some (CacheVal.record cd) →
      cd.sha256 = k) : CacheInv (setupCache c) := by
  have hdata : (setupCache c).data =
      alistSet c.data "data-version" (CacheVal.ver HOOK_DATA_VERSION) ∨
      (setupCache c).data = [("data-version", CacheVal.ver HOOK_DATA_VERSION)] := by
    unfold setupCache
    by_cases h1 : c.has "data-version"
    · by_cases h2 : c.get "data-version" = some (CacheVal.ver HOOK_DATA_VERSION)
      · left
        simp [h1, h2, set_data]
      · right
        simp [h1, h2, SimpleFileCache.flush, SimpleFileCache.set, alistSet]
    · left
      simp [h1, set_data]
  constructor
  · intro k cd hkc
    rcases hdata with hd | hd <;> rw [hd] at hkc
    · by_cases hk : k = "data-version"
      · subst hk
        rw [alistLookup_set_self] at hkc
        cases hkc
      · rw [alistLookup_set_ne _ _ _ _ hk] at hkc
        exact hrec k cd hkc
    · simp only [alistLookup] at hkc
      split at hkc
      · cases hkc
      · cases hkc
  · rcases hdata with hd | hd <;> rw [hd]
    · rw [alistLookup_set_self]
    · simp [alistLookup]

/-- Every completed task preserves the cache invariant, because a commit
stores the record under its own digest and digests never collide with the
reserved key. -/
theorem cacheInv_step (env : RunEnv) (variant : Variant) (s : RunState)
    (t : TaskInfo) (s' : RunState)
    (hdv : ∀ bs, env.digestFn bs ≠ "data-version")
    (hci : CacheInv s.cache)
    (hstep : processTask env variant s t = StepResult.ok s') :
    CacheInv s'.cache := by
  unfold processTask at hstep
  cases hfb : env.fileBytes t.aarPathAndFilename with
  | none =>
    rw [show hashFile env.fileBytes env.digestFn t.aarPathAndFilename = none
      from by simp [hashFile, hfb]] at hstep
    cases hstep
  | some bs =>
    have hh : hashFile env.fileBytes env.digestFn t.aarPathAndFilename =
        some (env.digestFn bs) := by simp [hashFile, hfb]
    rw [hh] at hstep
    have hhd : env.digestFn bs ≠ "data-version" := hdv bs
    cases hsk : alistLookup s.libraryHashMap (env.digestFn bs) with
    | some prev =>
      simp only [skipLibraryIfDuplicate, hsk, Option.isSome_some,
        if_true] at hstep
      cases hstep
      exact hci
    | none =>
      simp only [skipLibraryIfDuplicate, hsk, Option.isSome_none,
        Bool.false_eq_true, if_false] at hstep
      have hcommit : ∀ (l : LibraryInfo), l.sha256 = env.digestFn bs →
          CacheInv (s.cache.set l.sha256 (CacheVal.record l)) := by
        intro l hls
        constructor
        · intro k cd hkc
          rw [set_data] at hkc
          by_cases hk : k = l.sha256
          · subst hk
            rw [alistLookup_set_self] at hkc
            cases hkc
            rfl
          · rw [alistLookup_set_ne _ _ _ _ hk] at hkc
            exact hci.1 k cd hkc
        · have hne2 : "data-version" ≠ l.sha256 := by
            rw [hls]
            exact fun he => hhd he.symm
          rw [set_data, alistLookup_set_ne _ _ _ _ hne2]
          exact hci.2
      cases hdo : doTransform env variant s.cache t (env.digestFn bs) with
      | typeErr =>
        rw [hdo] at hstep
        cases hstep
      | transformErr msg =>
        rw [hdo] at hstep
        cases hstep
      | cacheHit cd =>
        rw [hdo] at hstep
        have hcd : cd.sha256 = env.digestFn bs :=
          hci.1 _ cd (doTransform_cacheHit_inv env variant s.cache t _ cd hdo)
        cases hlp : alistLookup s.packageNameMap cd.packageName with
        | some existing =>
          simp only [ensureUniquePackageName, hlp] at hstep
          cases hstep
        | none =>
          simp only [ensureUniquePackageName, hlp] at hstep
          cases hstep
          rw [update_cache]
          exact hcommit cd hcd
      | transformed l =>
        rw [hdo] at hstep
        have hl : l.sha256 = env.digestFn bs :=
          doTransform_transformed_inv env variant s.cache t _ l hdo
        cases hlp : alistLookup s.packageNameMap l.packageName with
        | some existing =>
          simp only [ensureUniquePackageName, hlp] at hstep
          cases hstep
        | none =>
          simp only [ensureUniquePackageName, hlp] at hstep
          cases hstep
          rw [update_cache]
          exact hcommit l hl

/-- The cache invariant is preserved along the whole task loop. -/
theorem cacheInv_loop (env : RunEnv) (variant : Variant) :
    ∀ (tasks : List TaskInfo) (s s' : RunState),
    (∀ bs, env.digestFn bs ≠ "data-version") →
    runTasksLoop env variant s tasks = StepResult.ok s' →
    CacheInv s.cache → CacheInv s'.cache
  | [], s, s' => by
    intro _ hloop hci
    cases hloop
    exact hci
  | t :: rest, s, s' => by
    intro hdv hloop hci
    rw [show runTasksLoop env variant s (t :: rest) =
      (match processTask env variant s t with
       | StepResult.ok s1 => runTasksLoop env variant s1 rest
       | StepResult.fail e s1 => StepResult.fail e s1
       | StepResult.stuck s1 => StepResult.stuck s1) from rfl] at hloop
    cases hstep : processTask env variant s t with
    | ok s1 =>
      rw [hstep] at hloop
      exact cacheInv_loop env variant rest s1 s' hdv hloop
        (cacheInv_step env variant s t s1 hdv hci hstep)
    | fail e s1 =>
      rw [hstep] at hloop
      cases hloop
    | stuck s1 =>
      rw [hstep] at hloop
      cases hloop

/-- **C5.** After a successful run the persisted map is exactly the loop's
final cache restricted to the reserved version key and this run's digests:
the version entry survives (still holding the current tag), every surviving
key is the version key or a digest produced this run, and every other key —
in particular a stale digest from a prior run — is removed. -/
theorem c5_cleanup_prunes_unused (env : RunEnv) (variant : Variant)
    (builder0 : Builder) (cp : String) (cfs : CacheFileState)
    (t0 : TaskInfo) (rest : List TaskInfo) (s : RunState) (ops : List FsOp)
    (hdv : ∀ bs, env.digestFn bs ≠ "data-version")
    (hfile : ∀ dd, cfs = CacheFileState.valid dd →
       ∀ k cd, alistLookup dd k = some (CacheVal.record cd) → cd.sha256 = k)
    (hrun : transformAndroidLibraries env (t0 :: rest) builder0 variant cfs cp =
      (RunResult.ok s, ops)) :
    ∃ s₁, runTasksLoop env variant
        { cache := setupCache (SimpleFileCache.load cp cfs).cache,
          libraryHashMap := [], packageNameMap := [], builder := builder0,
          transformCalls := [] } (t0 :: rest) = StepResult.ok s₁ ∧
      s.cache.data = s₁.cache.data.filter (fun kv =>
        (kv.1 = "data-version" : Bool) ||
          (s₁.libraryHashMap.map Prod.fst).contains kv.1) ∧
      alistLookup s.cache.data "data-version" =
        some (CacheVal.ver HOOK_DATA_VERSION) ∧
      (∀ k, k ∈ s₁.cache.data.map Prod.fst →
        (k ∈ s.cache.data.map Prod.fst ↔
          (k = "data-version" ∨ k ∈ s₁.libraryHashMap.map Prod.fst))) := by
  cases hloop : runTasksLoop env variant
      { cache := setupCache (SimpleFileCache.load cp cfs).cache,
        libraryHashMap := [], packageNameMap := [], builder := builder0,
        transformCalls := [] } (t0 :: rest) with
  | fail e s2 =>
    rw [transformAndroidLibraries_fail env variant builder0 cfs cp e s2 t0
      rest hloop] at hrun
    simp at hrun
  | stuck s2 =>
    rw [transformAndroidLibraries_stuck env variant builder0 cfs cp s2 t0
      rest hloop] at hrun
    simp at hrun
  | ok s₁ =>
    rw [transformAndroidLibraries_ok env variant builder0 cfs cp s₁ t0
      rest hloop] at hrun
    rw [Prod.mk.injEq] at hrun
    obtain ⟨h1, -⟩ := hrun
    have hci : CacheInv s₁.cache := by
      apply cacheInv_loop env variant (t0 :: rest) _ s₁ hdv hloop
      apply cacheInv_setup
      cases cfs with
      | absent =>
        intro k cd hk
        cases hk
      | corrupt =>
        intro k cd hk
        cases hk
      | valid dd => exact hfile dd rfl
    have hs : s = { s₁ with
        cache := cleanupCache s₁.cache (List.map Prod.fst s₁.libraryHashMap) } := by
      injection h1 with h1'
      exact h1'.symm
    subst hs
    refine ⟨s₁, rfl, ?_, ?_, ?_⟩
    · dsimp only
      rw [cleanupCache_data]
    · dsimp only
      rw [cleanupCache_data]
      exact (alistLookup_filter s₁.cache.data
        (fun x => (x = "data-version" : Bool) ||
          (s₁.libraryHashMap.map Prod.fst).contains x) "data-version"
        (by simp)).trans hci.2
    · intro k hk
      dsimp only
      rw [cleanupCache_data]
      constructor
      · intro hmem
        obtain ⟨-, hp⟩ := (mem_keys_filter s₁.cache.data
          (fun x => (x = "data-version" : Bool) ||
            (s₁.libraryHashMap.map Prod.fst).contains x) k).mp hmem
        simp only [Bool.or_eq_true, decide_eq_true_eq, contains_true_iff] at hp
        exact hp
      · intro hor
        apply (mem_keys_filter s₁.cache.data
          (fun x => (x = "data-version" : Bool) ||
            (s₁.libraryHashMap.map Prod.fst).contains x) k).mpr
        refine ⟨hk, ?_⟩
        simp only [Bool.or_eq_true, decide_eq_true_eq, contains_true_iff]
        exact hor

/-- Witness for C5: the prior run's stale digest `"hOld"` is pruned while the
version key survives a concrete one-task run. -/
theorem c5_cleanup_prunes_unused_witness :
    ∃ s₁, runTasksLoop wEnv Variant.app
        { cache := setupCache (SimpleFileCache.load "cache/state.json"
            wStaleFile).cache,
          libraryHashMap := [], packageNameMap := [], builder := wBuilder,
          transformCalls := [] } [wTaskA] = StepResult.ok s₁ ∧
      wC5Final.cache.data = s₁.cache.data.filter (fun kv =>
        (kv.1 = "data-version" : Bool) ||
          (s₁.libraryHashMap.map Prod.fst).contains kv.1) ∧
      alistLookup wC5Final.cache.data "data-version" =
        some (CacheVal.ver HOOK_DATA_VERSION) ∧
      (∀ k, k ∈ s₁.cache.data.map Prod.fst →
        (k ∈ wC5Final.cache.data.map Prod.fst ↔
          (k = "data-version" ∨ k ∈ s₁.libraryHashMap.map Prod.fst))) :=
  c5_cleanup_prunes_unused wEnv Variant.app wBuilder "cache/state.json"
    wStaleFile wTaskA [] wC5Final wC5Ops
    (by
      intro bs he
      have h1 : List.head? (String.data (wEnv.digestFn bs)) = some 'h' := rfl
      have h2 : List.head? (String.data "data-version") = some 'd' := rfl
      have hd : some 'h' = some 'd' := by rw [← h1, ← h2, he]
      exact absurd (Option.some.inj hd) (by decide))
    (by
      intro dd hdd
      cases hdd
      intro k cd hk
      simp only [alistLookup] at hk
      split at hk
      · cases hk
      · split at hk
        · rename_i h2
          cases hk
          exact h2
        · cases hk)
    (by decide)

/-! ### Cache-path preservation -/

theorem load_cache_path (p : String) (cfs : CacheFileState) :
    (SimpleFileCache.load p cfs).cache.cachePathAndFilename = p := by
  cases cfs <;> rfl

theorem processTask_cache_path (env : RunEnv) (variant : Variant)
    (s : RunState) (t : TaskInfo) :
    (processTask env variant s t).state.cache.cachePathAndFilename =
      s.cache.cachePathAndFilename := by
  unfold processTask
  cases hh : hashFile env.fileBytes env.digestFn t.aarPathAndFilename with
  | none => rfl
  | some h =>
    dsimp only
    cases hsk : skipLibraryIfDuplicate s.libraryHashMap h with
    | error e => rfl
    | ok h2 =>
      dsimp only
      cases hdo : doTransform env variant s.cache t h2 with
      | typeErr => rfl
      | transformErr msg => rfl
      | cacheHit l =>
        dsimp only
        cases hens : ensureUniquePackageName s.packageNameMap l with
        | error e => rfl
        | ok l2 => rfl
      | transformed l =>
        dsimp only
        cases hens : ensureUniquePackageName s.packageNameMap l with
        | error e => rfl
        | ok l2 => rfl

theorem runTasksLoop_cache_path (env : RunEnv) (variant : Variant) :
    ∀ (tasks : List TaskInfo) (s s' : RunState),
    runTasksLoop env variant s tasks = StepResult.ok s' →
    s'.cache.cachePathAndFilename = s.cache.cachePathAndFilename
  | [], s, s' => by
    intro hloop
    cases hloop
    rfl
  | t :: rest, s, s' => by
    intro hloop
    rw [show runTasksLoop env variant s (t :: rest) =
      (match processTask env variant s t with
       | StepResult.ok s1 => runTasksLoop env variant s1 rest
       | StepResult.fail e s1 => StepResult.fail e s1
       | StepResult.stuck s1 => StepResult.stuck s1) from rfl] at hloop
    cases hstep : processTask env variant s t with
    | ok s1 =>
      rw [hstep] at hloop
      have h1 := runTasksLoop_cache_path env variant rest s1 s' hloop
      have h2 := processTask_cache_path env variant s t
      rw [hstep] at h2
      exact h1.trans h2
    | fail e s1 =>
      rw [hstep] at hloop
      cases hloop
    | stuck s1 =>
      rw [hstep] at hloop
      cases hloop

/-- **C6.** The cache file is written exactly once per run and only after
every task succeeded: a run aborted by a non-skip error (transform failure or
conflict), a run stuck on a hashing failure, and the empty fast path all
perform zero writes, while a successful non-empty run performs exactly one
write, of the final serialized map, to the cache path. -/
theorem c6_persist_only_on_success (env : RunEnv) (tasks : List TaskInfo)
    (builder0 : Builder) (variant : Variant) (cfs : CacheFileState)
    (cp : String) :
    (∀ e s, (transformAndroidLibraries env tasks builder0 variant cfs cp).1 =
        RunResult.err e s →
      (transformAndroidLibraries env tasks builder0 variant cfs cp).2.filter
        isWriteOp = []) ∧
    (∀ s, (transformAndroidLibraries env tasks builder0 variant cfs cp).1 =
        RunResult.crash s →
      (transformAndroidLibraries env tasks builder0 variant cfs cp).2.filter
        isWriteOp = []) ∧
    (∀ b, (transformAndroidLibraries env tasks builder0 variant cfs cp).1 =
        RunResult.okEmpty b →
      (transformAndroidLibraries env tasks builder0 variant cfs cp).2 = []) ∧
    (∀ s, (transformAndroidLibraries env tasks builder0 variant cfs cp).1 =
        RunResult.ok s →
      (transformAndroidLibraries env tasks builder0 variant cfs cp).2.filter
        isWriteOp = [FsOp.writeFile cp (encodeCache s.cache.data)]) := by
  have hload : ∀ (x : List FsOp),
      ((if (SimpleFileCache.load cp cfs).removedFile then [FsOp.unlink cp]
        else []) ++ x).filter isWriteOp = x.filter isWriteOp := by
    intro x
    cases hrf : (SimpleFileCache.load cp cfs).removedFile <;>
      simp [hrf, isWriteOp]
  cases tasks with
  | nil =>
    refine ⟨?_, ?_, ?_, ?_⟩
    · intro e s h
      simp [transformAndroidLibraries] at h
    · intro s h
      simp [transformAndroidLibraries] at h
    · intro b h
      rfl
    · intro s h
      simp [transformAndroidLibraries] at h
  | cons t0 rest =>
    cases hloop : runTasksLoop env variant
        { cache := setupCache (SimpleFileCache.load cp cfs).cache,
          libraryHashMap := [], packageNameMap := [], builder := builder0,
          transformCalls := [] } (t0 :: rest) with
    | fail e2 s2 =>
      rw [transformAndroidLibraries_fail env variant builder0 cfs cp e2 s2 t0
        rest hloop]
      dsimp only
      refine ⟨?_, ?_, ?_, ?_⟩
      · intro e s h
        cases hrf : (SimpleFileCache.load cp cfs).removedFile <;>
          simp [hrf, isWriteOp]
      · intro s h
        cases h
      · intro b h
        cases h
      · intro s h
        cases h
    | stuck s2 =>
      rw [transformAndroidLibraries_stuck env variant builder0 cfs cp s2 t0
        rest hloop]
      dsimp only
      refine ⟨?_, ?_, ?_, ?_⟩
      · intro e s h
        cases h
      · intro s h
        cases hrf : (SimpleFileCache.load cp cfs).removedFile <;>
          simp [hrf, isWriteOp]
      · intro b h
        cases h
      · intro s h
        cases h
    | ok s2 =>
      rw [transformAndroidLibraries_ok env variant builder0 cfs cp s2 t0
        rest hloop]
      dsimp only
      refine ⟨?_, ?_, ?_, ?_⟩
      · intro e s h
        cases h
      · intro s h
        cases h
      · intro b h
        cases h
      · intro s h
        injection h with h'
        subst h'
        rw [hload]
        have hpath : (cleanupCache s2.cache
            (List.map Prod.fst s2.libraryHashMap)).cachePathAndFilename = cp := by
          rw [cleanupCache_path]
          rw [runTasksLoop_cache_path env variant (t0 :: rest) _ s2 hloop]
          rw [setupCache_path, load_cache_path]
        unfold SimpleFileCache.persistOps
        rw [hpath]
        simp [isWriteOp]

/-- Witness for C6: a run whose single task fails in the transformer performs
no write to the cache file. -/
theorem c6_persist_only_on_success_witness :
    (transformAndroidLibraries wEnv [wTaskFail] wBuilder Variant.app
      CacheFileState.absent "cache/state.json").2.filter isWriteOp = [] :=
  (c6_persist_only_on_success wEnv [wTaskFail] wBuilder Variant.app
    CacheFileState.absent "cache/state.json").1
    (RunError.transformFailed "boom")
    ⟨⟨"cache/state.json", [("data-version", CacheVal.ver "1")]⟩, [], [],
      wBuilder, [wTaskFail]⟩
    (by decide)

/-! ### Conflict-message containment lemmas -/

theorem containsSub_left (x y : String) : containsSub (x ++ y) x :=
  containsSub_appendR y (containsSub_self x)

theorem containsSub_right (x y : String) : containsSub (x ++ y) y :=
  containsSub_appendL x (containsSub_self y)

theorem formatDupeInfo_core (d : LibraryInfo)
    (h : d.task.originType = Origin.core) :
    formatDupeInfo d =
      d.task.aarPathAndFilename ++ " (hash: " ++ d.sha256 ++ ")" := by
  unfold formatDupeInfo
  rw [h]
  simp

theorem formatDupeInfo_module (d : LibraryInfo)
    (h : d.task.originType = Origin.module) :
    formatDupeInfo d =
      d.task.aarPathAndFilename ++ " (hash: " ++ d.sha256 ++
        ", origin: Module " ++
        (match d.task.moduleInfo with
         | some mi => mi.id
         | none => "") ++ ")" := by
  unfold formatDupeInfo
  rw [h]
  simp

theorem formatDupeInfo_project (d : LibraryInfo)
    (h : d.task.originType = Origin.project) :
    formatDupeInfo d =
      d.task.aarPathAndFilename ++ " (hash: " ++ d.sha256 ++
        ", origin: Project" ++ ")" := by
  unfold formatDupeInfo
  rw [h]
  simp

theorem formatDupeInfo_contains_path (d : LibraryInfo) :
    containsSub (formatDupeInfo d) d.task.aarPathAndFilename := by
  cases ho : d.task.originType
  · rw [formatDupeInfo_core d ho]
    exact containsSub_appendR _ (containsSub_appendR _ (containsSub_left _ _))
  · rw [formatDupeInfo_module d ho]
    exact containsSub_appendR _ (containsSub_appendR _ (containsSub_appendR _
      (containsSub_appendR _ (containsSub_left _ _))))
  · rw [formatDupeInfo_project d ho]
    exact containsSub_appendR _ (containsSub_appendR _ (containsSub_appendR _
      (containsSub_left _ _)))

theorem formatDupeInfo_contains_sha (d : LibraryInfo) :
    containsSub (formatDupeInfo d) d.sha256 := by
  cases ho : d.task.originType
  · rw [formatDupeInfo_core d ho]
    exact containsSub_appendR _ (containsSub_right _ _)
  · rw [formatDupeInfo_module d ho]
    exact containsSub_appendR _ (containsSub_appendR _ (containsSub_appendR _
      (containsSub_right _ _)))
  · rw [formatDupeInfo_project d ho]
    exact containsSub_appendR _ (containsSub_appendR _ (containsSub_right _ _))

theorem formatDupeInfo_contains_origin (d : LibraryInfo)
    (h : d.task.originType ≠ Origin.core) :
    containsSub (formatDupeInfo d) (originDescription d.task) := by
  cases ho : d.task.originType
  · exact absurd ho h
  · rw [formatDupeInfo_module d ho]
    rw [show originDescription d.task = ", origin: Module " ++
        (match d.task.moduleInfo with
         | some mi => mi.id
         | none => "") from by unfold originDescription; rw [ho]]
    refine ⟨d.task.aarPathAndFilename ++ " (hash: " ++ d.sha256, ")", ?_⟩
    simp [String.append_assoc]
  · rw [formatDupeInfo_project d ho]
    rw [show originDescription d.task = ", origin: Project" from by
      unfold originDescription; rw [ho]]
    exact containsSub_appendR _ (containsSub_right _ _)

theorem conflictErrorMessage_contains_existing (e i : LibraryInfo)
    {sub : String} (h : containsSub (formatDupeInfo e) sub) :
    containsSub (conflictErrorMessage e i) sub := by
  unfold conflictErrorMessage
  exact containsSub_appendR _ (containsSub_appendR _ (containsSub_appendR _
    (containsSub_appendR _ (containsSub_appendR _ (containsSub_appendL _ h)))))

theorem conflictErrorMessage_contains_incoming (e i : LibraryInfo)
    {sub : String} (h : containsSub (formatDupeInfo i) sub) :
    containsSub (conflictErrorMessage e i) sub := by
  unfold conflictErrorMessage
  exact containsSub_appendR _ (containsSub_appendR _ (containsSub_appendL _ h))

theorem conflictErrorMessage_contains_guidance (e i : LibraryInfo) :
    containsSub (conflictErrorMessage e i)
      (conflictGuidance e.task.originType i.task.originType) := by
  unfold conflictErrorMessage
  exact containsSub_right _ _

/-- **C1.** A task whose record (cache hit or fresh transform) declares a
package name that an earlier-accepted record already holds fails the whole
run with the conflict error built from both records: the message names both
input paths, both digests and both origins, the guidance sentence is chosen
by whether both origins are Module, both Project, or mixed, the registries
are untouched (the first input keeps the name, nothing is merged or
overwritten), and the loop aborts at this task. -/
theorem c1_conflict_fails_run (env : RunEnv) (variant : Variant)
    (s : RunState) (t : TaskInfo) (rest : List TaskInfo) (h : String)
    (l existing : LibraryInfo)
    (hh : hashFile env.fileBytes env.digestFn t.aarPathAndFilename = some h)
    (hfresh : alistLookup s.libraryHashMap h = none)
    (hstep : doTransform env variant s.cache t h = TransformOutcome.cacheHit l ∨
      doTransform env variant s.cache t h = TransformOutcome.transformed l)
    (hexist : alistLookup s.packageNameMap l.packageName = some existing)
    (horig1 : existing.task.originType ≠ Origin.core)
    (horig2 : l.task.originType ≠ Origin.core) :
    (∃ tc, runTasksLoop env variant s (t :: rest) =
        StepResult.fail (RunError.conflict (conflictErrorMessage existing l))
          { s with transformCalls := tc } ∧
      alistLookup ({ s with transformCalls := tc } : RunState).packageNameMap
        l.packageName = some existing) ∧
    containsSub (conflictErrorMessage existing l)
      existing.task.aarPathAndFilename ∧
    containsSub (conflictErrorMessage existing l) l.task.aarPathAndFilename ∧
    containsSub (conflictErrorMessage existing l) existing.sha256 ∧
    containsSub (conflictErrorMessage existing l) l.sha256 ∧
    containsSub (conflictErrorMessage existing l)
      (originDescription existing.task) ∧
    containsSub (conflictErrorMessage existing l) (originDescription l.task) ∧
    containsSub (conflictErrorMessage existing l)
      (conflictGuidance existing.task.originType l.task.originType) ∧
    (existing.task.originType = Origin.module →
      l.task.originType = Origin.module →
      conflictGuidance existing.task.originType l.task.originType =
        guidanceBothModule) ∧
    (existing.task.originType = Origin.project →
      l.task.originType = Origin.project →
      conflictGuidance existing.task.originType l.task.originType =
        guidanceBothProject) ∧
    (existing.task.originType ≠ l.task.originType →
      conflictGuidance existing.task.originType l.task.originType =
        guidanceMixed) := by
  have hloopBase : ∀ tc,
      processTask env variant s t =
        StepResult.fail (RunError.conflict (conflictErrorMessage existing l))
          { s with transformCalls := tc } →
      runTasksLoop env variant s (t :: rest) =
        StepResult.fail (RunError.conflict (conflictErrorMessage existing l))
          { s with transformCalls := tc } := by
    intro tc hpt
    rw [show runTasksLoop env variant s (t :: rest) =
      (match processTask env variant s t with
       | StepResult.ok s1 => runTasksLoop env variant s1 rest
       | StepResult.fail e s1 => StepResult.fail e s1
       | StepResult.stuck s1 => StepResult.stuck s1) from rfl]
    rw [hpt]
  refine ⟨?_, conflictErrorMessage_contains_existing existing l
      (formatDupeInfo_contains_path existing),
    conflictErrorMessage_contains_incoming existing l
      (formatDupeInfo_contains_path l),
    conflictErrorMessage_contains_existing existing l
      (formatDupeInfo_contains_sha existing),
    conflictErrorMessage_contains_incoming existing l
      (formatDupeInfo_contains_sha l),
    conflictErrorMessage_contains_existing existing l
      (formatDupeInfo_contains_origin existing horig1),
    conflictErrorMessage_contains_incoming existing l
      (formatDupeInfo_contains_origin l horig2),
    conflictErrorMessage_contains_guidance existing l, ?_, ?_, ?_⟩
  · rcases hstep with hdo | hdo
    · refine ⟨s.transformCalls, ?_, hexist⟩
      apply hloopBase
      unfold processTask
      rw [hh]
      simp only [skipLibraryIfDuplicate, hfresh, Option.isSome_none,
        Bool.false_eq_true, if_false, hdo]
      simp [ensureUniquePackageName, hexist]
    · refine ⟨s.transformCalls ++ [t], ?_, hexist⟩
      apply hloopBase
      unfold processTask
      rw [hh]
      simp only [skipLibraryIfDuplicate, hfresh, Option.isSome_none,
        Bool.false_eq_true, if_false, hdo]
      simp [ensureUniquePackageName, hexist]
  · intro h1 h2
    rw [h1, h2]
    simp [conflictGuidance]
  · intro h1 h2
    rw [h1, h2]
    simp [conflictGuidance]
  · intro hne2
    cases ho1 : existing.task.originType with
    | core => exact absurd ho1 horig1
    | module =>
      cases ho2 : l.task.originType with
      | core => exact absurd ho2 horig2
      | module =>
        rw [ho1, ho2] at hne2
        exact absurd rfl hne2
      | project => simp [conflictGuidance]
    | project =>
      cases ho2 : l.task.originType with
      | core => exact absurd ho2 horig2
      | module => simp [conflictGuidance]
      | project =>
        rw [ho1, ho2] at hne2
        exact absurd rfl hne2

/-- Witness for C1: the fixture module task collides with the already
accepted project record and the loop fails with the conflict error while the
first record keeps the name. -/
theorem c1_conflict_fails_run_witness :
    ∃ tc, runTasksLoop wEnv Variant.app wConflictState [wTaskB] =
        StepResult.fail (RunError.conflict
          (conflictErrorMessage wConflictExisting wConflictIncoming))
          { wConflictState with transformCalls := tc } ∧
      alistLookup ({ wConflictState with
          transformCalls := tc } : RunState).packageNameMap
        wConflictIncoming.packageName = some wConflictExisting :=
  (c1_conflict_fails_run wEnv Variant.app wConflictState wTaskB [] "h6"
    wConflictIncoming wConflictExisting (by decide) (by decide)
    (Or.inr (by decide)) (by decide) (by decide) (by decide)).1

/-- **C7** (the error path of hashing): `hashFile` attaches only a
`readable` listener to the read stream; when the input cannot be read, no
`error` listener exists, the `done` callback is never invoked (modelled as
`none`), and the run ends in `crash` with no write — no `IoError` is ever
delivered to the orchestration's error path, contrary to the spec's
contract. -/
theorem c7_unreadable_input_never_surfaced :
    hashFile wEnv.fileBytes wEnv.digestFn wTaskBad.aarPathAndFilename = none ∧
    (transformAndroidLibraries wEnv [wTaskBad] wBuilder Variant.app
        CacheFileState.absent "cache/state.json").1 =
      RunResult.crash ⟨⟨"cache/state.json",
        [("data-version", CacheVal.ver HOOK_DATA_VERSION)]⟩, [], [],
        wBuilder, []⟩ ∧
    (transformAndroidLibraries wEnv [wTaskBad] wBuilder Variant.app
        CacheFileState.absent "cache/state.json").2 = [] := by
  decide

/-- Counterexample for C8 as stated: `persist` performs one direct
`writeFileSync` of the serialization to the backing file (no temporary file,
no rename appears among its operations), and a write interrupted after 17
bytes leaves the file holding a strict prefix that is neither the previous
complete contents nor the new complete contents. -/
theorem c8_persist_atomicity_counterexample :
    SimpleFileCache.persistOps
      ⟨"dir/state.json", [("data-version", CacheVal.ver "1")]⟩ =
      [FsOp.mkdirRec "dir",
       FsOp.writeFile "dir/state.json"
         (encodeCache [("data-version", CacheVal.ver "1")])] ∧
    partialWrite (encodeCache [("data-version", CacheVal.ver "1")]) 17 ≠
      encodeCache [("data-version", CacheVal.ver "0")] ∧
    partialWrite (encodeCache [("data-version", CacheVal.ver "1")]) 17 ≠
      encodeCache [("data-version", CacheVal.ver "1")] ∧
    (partialWrite (encodeCache [("data-version", CacheVal.ver "1")]) 17).data =
      (encodeCache [("data-version", CacheVal.ver "1")]).data.take 17 := by
  decide

/-- **C8 (amended).** `persist` serializes the full in-memory map and writes
it with a single direct write to the backing file, after an unconditional
recursive directory creation (the `fs.exists` misuse makes the existence
check always falsy); the write is not atomic — there is no
write-to-temp-then-rename — so a write interrupted after `j` bytes leaves
the backing file holding the first `j` bytes, a strict prefix whenever `j`
is less than the serialization's length. -/
theorem c8_persist_direct_write (c : SimpleFileCache) :
    SimpleFileCache.persistOps c =
      [FsOp.mkdirRec (dirname c.cachePathAndFilename),
       FsOp.writeFile c.cachePathAndFilename (encodeCache c.data)] ∧
    ((SimpleFileCache.persistOps c).filter isWriteOp).length = 1 ∧
    (∀ j, (partialWrite (encodeCache c.data) j).data =
      (encodeCache c.data).data.take j) ∧
    (∀ j, j < (encodeCache c.data).length →
      partialWrite (encodeCache c.data) j ≠ encodeCache c.data) := by
  refine ⟨rfl, rfl, fun j => rfl, ?_⟩
  intro j hj he
  have hlen := congrArg String.length he
  simp only [partialWrite, String.length, List.length_take] at hlen
  have hmin : min j (encodeCache c.data).data.length = j :=
    Nat.min_eq_left (Nat.le_of_lt hj)
  rw [hmin] at hlen
  exact absurd hlen (Nat.ne_of_lt hj)

/-- Witness for C8 (amended) at a concrete cache and interruption point. -/
theorem c8_persist_direct_write_witness :
    SimpleFileCache.persistOps
      ⟨"dir/state.json", [("data-version", CacheVal.ver "1")]⟩ =
      [FsOp.mkdirRec (dirname "dir/state.json"),
       FsOp.writeFile "dir/state.json"
         (encodeCache [("data-version", CacheVal.ver "1")])] ∧
    partialWrite (encodeCache [("data-version", CacheVal.ver "1")]) 3 ≠
      encodeCache [("data-version", CacheVal.ver "1")] :=
  ⟨(c8_persist_direct_write
      ⟨"dir/state.json", [("data-version", CacheVal.ver "1")]⟩).1,
   (c8_persist_direct_write
      ⟨"dir/state.json", [("data-version", CacheVal.ver "1")]⟩).2.2.2 3
      (by decide)⟩

/-- **C9.** A missing cache file and an unparsable cache file both yield an
empty store from the constructor; the unparsable file alone is deleted; and
a run over a corrupt cache file produces exactly the result of a run over an
absent one — the corruption is recovered locally and never surfaces as an
error — with the constructor's unlink as the only extra file operation. -/
theorem c9_corrupt_cache_recovered (env : RunEnv) (tasks : List TaskInfo)
    (b : Builder) (variant : Variant) (p cp : String) :
    SimpleFileCache.load p CacheFileState.absent = ⟨⟨p, []⟩, false⟩ ∧
    SimpleFileCache.load p CacheFileState.corrupt = ⟨⟨p, []⟩, true⟩ ∧
    (transformAndroidLibraries env tasks b variant CacheFileState.corrupt cp).1 =
      (transformAndroidLibraries env tasks b variant CacheFileState.absent cp).1 ∧
    (tasks = [] →
      (transformAndroidLibraries env tasks b variant CacheFileState.corrupt cp).2 = []) ∧
    (∀ t0 rest, tasks = t0 :: rest →
      (transformAndroidLibraries env tasks b variant CacheFileState.corrupt cp).2 =
        FsOp.unlink cp ::
          (transformAndroidLibraries env tasks b variant CacheFileState.absent cp).2) := by
  refine ⟨rfl, rfl, ?_, ?_, ?_⟩
  · cases tasks with
    | nil => rfl
    | cons t0 rest =>
      unfold transformAndroidLibraries
      dsimp only [SimpleFileCache.load]
      cases hl : runTasksLoop env variant
          { cache := setupCache ⟨cp, []⟩, libraryHashMap := [],
            packageNameMap := [], builder := b,
            transformCalls := [] } (t0 :: rest) <;> rfl
  · intro ht
    subst ht
    rfl
  · intro t0 rest ht
    subst ht
    unfold transformAndroidLibraries
    dsimp only [SimpleFileCache.load]
    cases hl : runTasksLoop env variant
        { cache := setupCache ⟨cp, []⟩, libraryHashMap := [],
          packageNameMap := [], builder := b,
          transformCalls := [] } (t0 :: rest) <;> rfl

/-- Witness for C9: a concrete one-task run over a corrupt cache file ends
like the absent-file run, with the unlink as the only extra operation. -/
theorem c9_corrupt_cache_recovered_witness :
    (transformAndroidLibraries wEnv [wTaskA] wBuilder Variant.app
        CacheFileState.corrupt "cache/state.json").2 =
      FsOp.unlink "cache/state.json" ::
        (transformAndroidLibraries wEnv [wTaskA] wBuilder Variant.app
          CacheFileState.absent "cache/state.json").2 :=
  (c9_corrupt_cache_recovered wEnv [wTaskA] wBuilder Variant.app
    "cache/state.json" "cache/state.json").2.2.2.2 wTaskA [] rfl

end Aar
